import Mathlib

/-!
# Scalr provider: identity codec, relationship reconciliation, state migration

A shallow embedding of the reconciliation logic of the Scalr Terraform provider
(`resource_scalr_iam_user_membership.go`, `resource_scalr_environment.go`,
`data_source_scalr_service_account.go`) together with the workspace state
migrations exercised by `resource_scalr_workspace_migrate_test.go`.

Go values are embedded as follows.

* A Go `string` is a Lean `String`; the separator `"/"` is the single
  character `'/'`.
* A Go `error` is an `Option GoError` (`none` is `nil`).
* The remote API client is a record of state-passing functions over an
  arbitrary remote state `σ`; every call a lifecycle function issues is
  appended to a call log, so that "is called with" and "is never called" are
  statements about that log.
-/

namespace Scalr

/-! ## Errors -/

/-- Go `error` values that the provider distinguishes: the sentinel
`scalr.ErrResourceNotFound` and every other error, carried by its text. -/
inductive GoError where
  | ErrResourceNotFound
  | msg (text : String)
  deriving DecidableEq, Repr

/-- The text `err.Error()` that `%v` prints. -/
def GoError.Error : GoError → String
  | .ErrResourceNotFound => "resource not found"
  | .msg t => t

/-- The test `errors.Is(err, scalr.ErrResourceNotFound)`. -/
def GoError.isNotFound : GoError → Bool
  | .ErrResourceNotFound => true
  | .msg _ => false

/-! ## Identity codec (`resource_scalr_iam_user_membership.go`, lines 164-175) -/

/-- Cut a character sequence at the first occurrence of `sep`: the text before
it and the text after it, or `none` when `sep` does not occur. -/
def cutFirst (sep : Char) : List Char → Option (List Char × List Char)
  | [] => none
  | c :: cs =>
    if c = sep then some ([], cs)
    else
      match cutFirst sep cs with
      | none => none
      | some (a, b) => some (c :: a, b)

/-- Go `strings.SplitN(s, sep, n)` for a one-character separator and `n ≥ 0`:
at most `n` pieces, the last one being the unsplit remainder. -/
def splitNChars (sep : Char) : Nat → List Char → List (List Char)
  | 0, _ => []
  | 1, s => [s]
  | n + 2, s =>
    match cutFirst sep s with
    | none => [s]
    | some (a, b) => a :: splitNChars sep (n + 1) b

/-- Go `strings.SplitN` on strings. -/
def stringsSplitN (s : String) (sep : Char) (n : Nat) : List String :=
  (splitNChars sep n s.data).map String.mk

/-- Go `packIamUserMembershipID`. -/
def packIamUserMembershipID (userID teamID : String) : String :=
  userID ++ "/" ++ teamID

/-- Go `unpackIamUserMembershipID`: the triple `(userID, teamID, err)`. -/
def unpackIamUserMembershipID (id : String) : String × String × Option GoError :=
  match stringsSplitN id '/' 2 with
  | [a, b] => (a, b, none)
  | _ =>
    ("", "", some (.msg ("invalid iam user membership ID format: " ++ id ++
      " (expected <user_id>/<team_id>")))

/-! ## Remote objects and the API client (`go-scalr`) -/

/-- Go `scalr.User`, with the fields the provider reads. -/
structure User where
  ID : String
  Username : String
  Email : String
  FullName : String
  deriving DecidableEq, Repr

/-- The Go literal `&scalr.User{ID: id}`: every other field is zero. -/
def User.ofID (id : String) : User :=
  { ID := id, Username := "", Email := "", FullName := "" }

/-- Go `scalr.Team`, with the fields the provider reads. -/
structure Team where
  ID : String
  Users : List User
  deriving DecidableEq, Repr

/-- Go `scalr.TeamUpdateOptions`, with the field the provider sets. -/
structure TeamUpdateOptions where
  Users : List User
  deriving DecidableEq, Repr

/-- Go `scalr.TagRelation`. -/
structure TagRelation where
  ID : String
  deriving DecidableEq, Repr

/-- Go `scalr.Environment`, with the fields the provider reads; a related
object (account, provider configuration, credential, policy group, tag) is
carried by its `ID`, the only field of it that is read. -/
structure Environment where
  ID : String
  Name : String
  AccountID : String
  CostEstimationEnabled : Bool
  Status : String
  DefaultProviderConfigurations : List String
  CreatedBy : Option User
  CloudCredentials : List String
  PolicyGroups : List String
  Tags : List String
  deriving DecidableEq, Repr

/-- Go `scalr.EnvironmentUpdateOptions`, with the fields the provider sets. -/
structure EnvironmentUpdateOptions where
  Name : String
  CostEstimationEnabled : Bool
  CloudCredentials : List String
  PolicyGroups : List String
  DefaultProviderConfigurations : List String
  deriving DecidableEq, Repr

/-- One call on the remote API client, with its arguments. -/
inductive Call where
  | TeamsRead (teamID : String)
  | TeamsUpdate (teamID : String) (opts : TeamUpdateOptions)
  | EnvironmentsRead (id : String)
  | EnvironmentsUpdate (id : String) (opts : EnvironmentUpdateOptions)
  | EnvironmentsDelete (id : String)
  | EnvironmentTagsAdd (id : String) (tags : List TagRelation)
  | EnvironmentTagsDelete (id : String) (tags : List TagRelation)
  deriving DecidableEq, Repr

/-- The remote API client `*scalr.Client` over a remote state `σ`: each
operation returns its result and the remote state after the call. -/
structure Client (σ : Type) where
  TeamsRead : String → σ → Except GoError Team × σ
  TeamsUpdate : String → TeamUpdateOptions → σ → Except GoError Team × σ
  EnvironmentsRead : String → σ → Except GoError Environment × σ
  EnvironmentsUpdate : String → EnvironmentUpdateOptions → σ → Except GoError Environment × σ
  EnvironmentsDelete : String → σ → Option GoError × σ
  EnvironmentTagsAdd : String → List TagRelation → σ → Option GoError × σ
  EnvironmentTagsDelete : String → List TagRelation → σ → Option GoError × σ

/-- The world a lifecycle function runs in: the remote state and the log of
the calls issued so far, oldest first. -/
structure World (σ : Type) where
  remote : σ
  log : List Call

variable {σ : Type}

/-- Issue `scalrClient.Teams.Read(ctx, teamID)`. -/
def callTeamsRead (c : Client σ) (teamID : String) (w : World σ) :
    Except GoError Team × World σ :=
  ((c.TeamsRead teamID w.remote).1,
    { remote := (c.TeamsRead teamID w.remote).2, log := w.log ++ [Call.TeamsRead teamID] })

/-- Issue `scalrClient.Teams.Update(ctx, teamID, opts)`. -/
def callTeamsUpdate (c : Client σ) (teamID : String) (opts : TeamUpdateOptions) (w : World σ) :
    Except GoError Team × World σ :=
  ((c.TeamsUpdate teamID opts w.remote).1,
    { remote := (c.TeamsUpdate teamID opts w.remote).2,
      log := w.log ++ [Call.TeamsUpdate teamID opts] })

/-- Issue `scalrClient.Environments.Read(ctx, id)`. -/
def callEnvironmentsRead (c : Client σ) (id : String) (w : World σ) :
    Except GoError Environment × World σ :=
  ((c.EnvironmentsRead id w.remote).1,
    { remote := (c.EnvironmentsRead id w.remote).2, log := w.log ++ [Call.EnvironmentsRead id] })

/-- Issue `scalrClient.Environments.Update(ctx, id, options)`. -/
def callEnvironmentsUpdate (c : Client σ) (id : String) (opts : EnvironmentUpdateOptions)
    (w : World σ) : Except GoError Environment × World σ :=
  ((c.EnvironmentsUpdate id opts w.remote).1,
    { remote := (c.EnvironmentsUpdate id opts w.remote).2,
      log := w.log ++ [Call.EnvironmentsUpdate id opts] })

/-- Issue `scalrClient.Environments.Delete(ctx, id)`. -/
def callEnvironmentsDelete (c : Client σ) (id : String) (w : World σ) :
    Option GoError × World σ :=
  ((c.EnvironmentsDelete id w.remote).1,
    { remote := (c.EnvironmentsDelete id w.remote).2,
      log := w.log ++ [Call.EnvironmentsDelete id] })

/-- Issue `scalrClient.EnvironmentTags.Add(ctx, id, tags)`. -/
def callEnvironmentTagsAdd (c : Client σ) (id : String) (tags : List TagRelation)
    (w : World σ) : Option GoError × World σ :=
  ((c.EnvironmentTagsAdd id tags w.remote).1,
    { remote := (c.EnvironmentTagsAdd id tags w.remote).2,
      log := w.log ++ [Call.EnvironmentTagsAdd id tags] })

/-- Issue `scalrClient.EnvironmentTags.Delete(ctx, id, tags)`. -/
def callEnvironmentTagsDelete (c : Client σ) (id : String) (tags : List TagRelation)
    (w : World σ) : Option GoError × World σ :=
  ((c.EnvironmentTagsDelete id tags w.remote).1,
    { remote := (c.EnvironmentTagsDelete id tags w.remote).2,
      log := w.log ++ [Call.EnvironmentTagsDelete id tags] })

/-! ## User membership (`resource_scalr_iam_user_membership.go`) -/

/-- The `*schema.ResourceData` of a user membership: the persisted identifier
`d.Id()` and the two declared fields. -/
structure MembershipData where
  Id : String
  user_id : String
  team_id : String
  deriving DecidableEq, Repr

/-- Go `getLinkedUserTeam`: the user and the team of a membership, or the
error. The loop over `team.Users` stops at the first user whose `ID` is the
user half of the identifier. -/
def getLinkedUserTeam (c : Client σ) (id : String) (w : World σ) :
    Except GoError (User × Team) × World σ :=
  match unpackIamUserMembershipID id with
  | (_, _, some err) => (.error err, w)
  | (userID, teamID, none) =>
    match callTeamsRead c teamID w with
    | (.error err, w1) => (.error err, w1)
    | (.ok team, w1) =>
      match team.Users.find? (fun u => u.ID == userID) with
      | none => (.error .ErrResourceNotFound, w1)
      | some user => (.ok (user, team), w1)

/-- Go `resourceScalrIamUserMembershipRead`. -/
def resourceScalrIamUserMembershipRead (c : Client σ) (d : MembershipData) (w : World σ) :
    Option GoError × MembershipData × World σ :=
  match getLinkedUserTeam c d.Id w with
  | (.error err, w1) =>
    if err.isNotFound then (none, { d with Id := "" }, w1)
    else
      (some (.msg ("error retrieving iam user membership " ++ d.Id ++ ": " ++ err.Error)), d, w1)
  | (.ok (user, team), w1) =>
    (none, { d with user_id := user.ID, team_id := team.ID }, w1)

/-- Go `resourceScalrIamUserMembershipCreate`. -/
def resourceScalrIamUserMembershipCreate (c : Client σ) (d : MembershipData) (w : World σ) :
    Option GoError × MembershipData × World σ :=
  match callTeamsRead c d.team_id w with
  | (.error err, w1) =>
    if err.isNotFound then (some (.msg ("team " ++ d.team_id ++ " not found")), d, w1)
    else
      (some (.msg ("error creating iam user membership " ++
        packIamUserMembershipID d.user_id d.team_id ++ ": " ++ err.Error)), d, w1)
  | (.ok team, w1) =>
    match callTeamsUpdate c d.team_id { Users := team.Users ++ [User.ofID d.user_id] } w1 with
    | (.error err, w2) =>
      (some (.msg ("error creating iam user membership " ++
        packIamUserMembershipID d.user_id d.team_id ++ ": " ++ err.Error)), d, w2)
    | (.ok _, w2) =>
      resourceScalrIamUserMembershipRead c
        { d with Id := packIamUserMembershipID d.user_id d.team_id } w2

/-- Go `resourceScalrIamUserMembershipDelete`. -/
def resourceScalrIamUserMembershipDelete (c : Client σ) (d : MembershipData) (w : World σ) :
    Option GoError × MembershipData × World σ :=
  match getLinkedUserTeam c d.Id w with
  | (.error err, w1) =>
    if err.isNotFound then (none, d, w1)
    else
      (some (.msg ("error deleting iam user membership " ++ d.Id ++ ": " ++ err.Error)), d, w1)
  | (.ok (user, team), w1) =>
    match callTeamsUpdate c team.ID { Users := team.Users.filter (fun u => u.ID != user.ID) } w1 with
    | (.error err, w2) =>
      (some (.msg ("error deleting iam user membership " ++ d.Id ++ ": " ++ err.Error)), d, w2)
    | (.ok _, w2) => (none, d, w2)

/-! ## Environment (`resource_scalr_environment.go`) -/

/-- One step of the table construction of Go `hash/crc32`
(`simplePopulateTable`, polynomial `0xedb88320`): when the low bit is set,
`(crc >> 1) ^ poly`, otherwise `crc >> 1`. -/
def crc32Shift (crc : Nat) : Nat :=
  if crc % 2 = 1 then (crc / 2) ^^^ 0xEDB88320 else crc / 2

/-- The entry `i` of the IEEE table of Go `hash/crc32`: eight steps from `i`. -/
def crc32Table (i : Nat) : Nat :=
  crc32Shift (crc32Shift (crc32Shift (crc32Shift (crc32Shift (crc32Shift (crc32Shift
    (crc32Shift i)))))))

/-- Go `crc32.ChecksumIEEE` (`simpleUpdate` from 0): from `^0`, every byte `v`
turns `crc` into `tab[byte(crc) ^ v] ^ (crc >> 8)`; the result is complemented
on 32 bits. -/
def crc32ChecksumIEEE (data : List Nat) : Nat :=
  (data.foldl (fun crc v => crc32Table ((crc % 256) ^^^ v) ^^^ (crc / 256)) 0xFFFFFFFF)
    ^^^ 0xFFFFFFFF

/-- The UTF-8 bytes of a character. -/
def utf8Bytes (c : Char) : List Nat :=
  if c.toNat < 0x80 then [c.toNat]
  else if c.toNat < 0x800 then [0xC0 + c.toNat / 64, 0x80 + c.toNat % 64]
  else if c.toNat < 0x10000 then
    [0xE0 + c.toNat / 4096, 0x80 + c.toNat / 64 % 64, 0x80 + c.toNat % 64]
  else
    [0xF0 + c.toNat / 262144, 0x80 + c.toNat / 4096 % 64, 0x80 + c.toNat / 64 % 64,
      0x80 + c.toNat % 64]

/-- The bytes `[]byte(s)` of a Go string. -/
def stringBytes (s : String) : List Nat :=
  (s.data.map utf8Bytes).flatten

/-- SDK `hashcode.String`: the CRC-32 of the bytes of the string, which as an
`int` of 64 bits is never negative. -/
def hashcodeString (s : String) : Nat :=
  crc32ChecksumIEEE (stringBytes s)

/-- A `*schema.Set` of strings, by the list of the items it was built from, in
the order in which they were added. -/
abbrev SchemaSet := List String

/-- SDK `(*schema.Set).hash` for a set whose `Elem` is a string schema, as
`tag_ids` is: `HashSchema` serializes the item as its text followed by `;` and
takes `hashcode.String` of that. The code is the key of the item in the map `m`
of the set. -/
def SchemaSet.hash (item : String) : Nat :=
  hashcodeString (item ++ ";")

/-- The items the map `m` of the set holds: `add` stores an item only when its
code is not yet a key, so of the items of one code the first one stays. -/
def SchemaSet.items : SchemaSet → List String
  | [] => []
  | x :: xs => x :: (SchemaSet.items xs).filter (fun y => SchemaSet.hash y != SchemaSet.hash x)

/-- The keys of the map `m` of the set. -/
def SchemaSet.codes (s : SchemaSet) : List Nat :=
  (SchemaSet.items s).map SchemaSet.hash

/-- SDK `(*schema.Set).Difference`: the items of `s` whose code is not a key of
the map of `other`. -/
def SchemaSet.Difference (s other : SchemaSet) : SchemaSet :=
  (SchemaSet.items s).filter (fun x => decide (SchemaSet.hash x ∉ SchemaSet.codes other))

/-- SDK `(*schema.Set).Equal`, `reflect.DeepEqual` of the two maps: the two
sets hold the same items. -/
def SchemaSet.Equal (s other : SchemaSet) : Bool :=
  decide (∀ x ∈ SchemaSet.items s, x ∈ SchemaSet.items other) &&
    decide (∀ x ∈ SchemaSet.items other, x ∈ SchemaSet.items s)

/-- SDK `(*schema.Set).List`: the items the set holds. The SDK lists them in the
order of their codes; the order is not modelled, the items are listed as held. -/
def SchemaSet.List (s : SchemaSet) : List String :=
  SchemaSet.items s

/-- One element of the computed `created_by` list. -/
structure CreatedBy where
  username : String
  email : String
  full_name : String
  deriving DecidableEq, Repr

/-- The `*schema.ResourceData` of an environment: the persisted identifier,
the value of each field, and for `tag_ids` the prior state value as well
(`d.GetChange("tag_ids")` returns `(tag_ids_old, tag_ids)`). -/
structure EnvironmentData where
  Id : String
  name : String
  cost_estimation_enabled : Bool
  status : String
  created_by : List CreatedBy
  account_id : String
  cloud_credentials : List String
  policy_groups : List String
  default_provider_configurations : SchemaSet
  tag_ids_old : SchemaSet
  tag_ids : SchemaSet
  deriving DecidableEq, Repr

/-- SDK `d.HasChange("tag_ids")`: the old and the new set are not `Equal`. -/
def EnvironmentData.HasChangeTagIDs (d : EnvironmentData) : Bool :=
  !(SchemaSet.Equal d.tag_ids_old d.tag_ids)

/-- Modelled from the spec: `InterfaceArrToTagRelationArr`, a helper of this
repository that is not among the sources, turns each identifier of the list
into the member reference `&scalr.TagRelation{ID: id}` that the add and remove
operations take, in the order given. -/
def InterfaceArrToTagRelationArr (arr : List String) : List TagRelation :=
  arr.map (fun id => { ID := id })

/-- Go `parseCloudCredentialDefinitions`; `ValidateIDsDefinitions`, a helper of
this repository that is not among the sources, is the parameter `validate`. -/
def parseCloudCredentialDefinitions (validate : List String → Option GoError)
    (d : EnvironmentData) : Except GoError (List String) :=
  match validate d.cloud_credentials with
  | some err => .error (.msg ("Got error during parsing cloud credentials: " ++ err.Error))
  | none => .ok d.cloud_credentials

/-- Go `parsePolicyGroupDefinitions`, with `ValidateIDsDefinitions` as the
parameter `validate`. -/
def parsePolicyGroupDefinitions (validate : List String → Option GoError)
    (d : EnvironmentData) : Except GoError (List String) :=
  match validate d.policy_groups with
  | some err => .error (.msg ("Got error during parsing policy groups: " ++ err.Error))
  | none => .ok d.policy_groups

/-- Go `resourceScalrEnvironmentRead`. -/
def resourceScalrEnvironmentRead (c : Client σ) (d : EnvironmentData) (w : World σ) :
    Option GoError × EnvironmentData × World σ :=
  match callEnvironmentsRead c d.Id w with
  | (.error err, w1) =>
    if err.isNotFound then (none, { d with Id := "" }, w1)
    else (some (.msg ("Error reading environment " ++ d.Id ++ ": " ++ err.Error)), d, w1)
  | (.ok environment, w1) =>
    (none,
      { d with
        name := environment.Name
        account_id := environment.AccountID
        cost_estimation_enabled := environment.CostEstimationEnabled
        status := environment.Status
        default_provider_configurations := environment.DefaultProviderConfigurations
        created_by :=
          match environment.CreatedBy with
          | none => []
          | some u => [{ username := u.Username, email := u.Email, full_name := u.FullName }]
        cloud_credentials := environment.CloudCredentials
        policy_groups := environment.PolicyGroups
        tag_ids := environment.Tags },
      w1)

/-- The list `tagsToAdd` of `resourceScalrEnvironmentUpdate` (line 282). -/
def tagsToAdd (d : EnvironmentData) : List TagRelation :=
  InterfaceArrToTagRelationArr (SchemaSet.Difference d.tag_ids d.tag_ids_old).List

/-- The list `tagsToDelete` of `resourceScalrEnvironmentUpdate` (line 283). -/
def tagsToDelete (d : EnvironmentData) : List TagRelation :=
  InterfaceArrToTagRelationArr (SchemaSet.Difference d.tag_ids_old d.tag_ids).List

/-- The tag phase of `resourceScalrEnvironmentUpdate` (lines 278-300): the add
call, then the delete call, each made only for a non-empty list and each
ending the phase with its error when it fails. -/
def updateEnvironmentTags (c : Client σ) (d : EnvironmentData) (w : World σ) :
    Option GoError × World σ :=
  if d.HasChangeTagIDs then
    match (if (tagsToAdd d).length > 0 then callEnvironmentTagsAdd c d.Id (tagsToAdd d) w
           else (none, w)) with
    | (some err, w1) =>
      (some (.msg ("Error adding tags to environment " ++ d.Id ++ ": " ++ err.Error)), w1)
    | (none, w1) =>
      match (if (tagsToDelete d).length > 0 then
              callEnvironmentTagsDelete c d.Id (tagsToDelete d) w1
             else (none, w1)) with
      | (some err, w2) =>
        (some (.msg ("Error deleting tags from environment " ++ d.Id ++ ": " ++ err.Error)), w2)
      | (none, w2) => (none, w2)
  else (none, w)

/-- Go `resourceScalrEnvironmentUpdate`. The provider configurations sent are
the elements of the set in both branches of `GetOk` (none when it is empty). -/
def resourceScalrEnvironmentUpdate (validate : List String → Option GoError)
    (c : Client σ) (d : EnvironmentData) (w : World σ) :
    Option GoError × EnvironmentData × World σ :=
  match parseCloudCredentialDefinitions validate d with
  | .error err => (some err, d, w)
  | .ok cloudCredentials =>
    match parsePolicyGroupDefinitions validate d with
    | .error err => (some err, d, w)
    | .ok policyGroups =>
      match callEnvironmentsUpdate c d.Id
          { Name := d.name
            CostEstimationEnabled := d.cost_estimation_enabled
            CloudCredentials := cloudCredentials
            PolicyGroups := policyGroups
            DefaultProviderConfigurations := d.default_provider_configurations.List } w with
      | (.error err, w1) =>
        (some (.msg ("Error updating environment " ++ d.Id ++ ": " ++ err.Error)), d, w1)
      | (.ok _, w1) =>
        match updateEnvironmentTags c d w1 with
        | (some err, w2) => (some err, d, w2)
        | (none, w2) => resourceScalrEnvironmentRead c d w2

/-- Go `resourceScalrEnvironmentDelete`. -/
def resourceScalrEnvironmentDelete (c : Client σ) (d : EnvironmentData) (w : World σ) :
    Option GoError × EnvironmentData × World σ :=
  match callEnvironmentsDelete c d.Id w with
  | (some err, w1) =>
    if err.isNotFound then (none, d, w1)
    else (some (.msg ("Error deleting environment " ++ d.Id ++ ": " ++ err.Error)), d, w1)
  | (none, w1) => (none, d, w1)

/-! ## Workspace state migrations (`resource_scalr_workspace_migrate_test.go`) -/

/-- A dynamically typed Go value `interface{}` of a state document. -/
inductive Value where
  | null
  | str (s : String)
  | bool (b : Bool)
  | list (items : List Value)
  | map (entries : List (String × Value))
  deriving Repr

/-- A state document `map[string]interface{}`, by the list of its entries. -/
abbrev Doc := List (String × Value)

/-- The lookup `m[k]` with its presence flag: `none` when the key is absent. -/
def Doc.get (m : Doc) (k : String) : Option Value :=
  match m.find? (fun e => e.1 == k) with
  | some e => some e.2
  | none => none

/-- The assignment `m[k] = v`: replaces the entry of `k`, or adds one. -/
def Doc.set (m : Doc) (k : String) (v : Value) : Doc :=
  if (m.get k).isSome then m.map (fun e => if e.1 == k then (k, v) else e)
  else m ++ [(k, v)]

/-- The Go builtin `delete(m, k)`. -/
def Doc.delete (m : Doc) (k : String) : Doc :=
  m.filter (fun e => e.1 != k)

/-- Modelled from the spec: `resourceScalrWorkspaceStateUpgradeV0`, which is not
among the sources (only its test is). The version-0 document becomes the
version-1 document by taking `external_id` as the new `id` and dropping
`external_id`; reading an absent key gives the nil value, as in Go. -/
def resourceScalrWorkspaceStateUpgradeV0 (rawState : Doc) : Except GoError Doc :=
  .ok ((rawState.set "id" ((rawState.get "external_id").getD .null)).delete "external_id")

/-- Modelled from the spec: `resourceScalrWorkspaceStateUpgradeV1`, which is not
among the sources (only its tests are). The `oauth_token_id` of the first
element of the `vcs_repo` list is collapsed into the scalar field
`vcs_provider_id` and removed from the element; a document without such an
element is returned as it is. -/
def resourceScalrWorkspaceStateUpgradeV1 (rawState : Doc) : Except GoError Doc :=
  match rawState.get "vcs_repo" with
  | some (.list (.map vcs :: rest)) =>
    .ok ((rawState.set "vcs_provider_id" ((Doc.get vcs "oauth_token_id").getD .null)).set
      "vcs_repo" (.list (.map (Doc.delete vcs "oauth_token_id") :: rest)))
  | _ => .ok rawState

/-- Modelled from the spec: `resourceScalrWorkspaceStateUpgradeV3`, which is not
among the sources (only its test is). The boolean `operations` flag gives the
enumerated `execution_mode`, `true` as `"remote"` and `false` as `"local"`;
the flag itself stays. A document without a boolean flag is returned as it is. -/
def resourceScalrWorkspaceStateUpgradeV3 (rawState : Doc) : Except GoError Doc :=
  match rawState.get "operations" with
  | some (.bool b) =>
    .ok (rawState.set "execution_mode" (.str (if b then "remote" else "local")))
  | _ => .ok rawState

/-! ## Test doubles of the remote API -/

/-- An in-memory remote: the teams and the environments it holds. -/
structure MemRemote where
  teams : List Team
  environments : List Environment
  deriving DecidableEq, Repr

/-- The client of the in-memory remote: `Read` finds the object by `ID` or
reports `ErrResourceNotFound`; `Teams.Update` stores the user list it is given;
the tag operations add and remove tag identifiers of the environment. -/
def memClient : Client MemRemote where
  TeamsRead id r :=
    match r.teams.find? (fun t => t.ID == id) with
    | some t => (.ok t, r)
    | none => (.error .ErrResourceNotFound, r)
  TeamsUpdate id opts r :=
    match r.teams.find? (fun t => t.ID == id) with
    | some t =>
      (.ok { t with Users := opts.Users },
        { r with teams := r.teams.map (fun t => if t.ID == id then { t with Users := opts.Users } else t) })
    | none => (.error .ErrResourceNotFound, r)
  EnvironmentsRead id r :=
    match r.environments.find? (fun e => e.ID == id) with
    | some e => (.ok e, r)
    | none => (.error .ErrResourceNotFound, r)
  EnvironmentsUpdate id opts r :=
    match r.environments.find? (fun e => e.ID == id) with
    | some e =>
      (.ok { e with Name := opts.Name, CostEstimationEnabled := opts.CostEstimationEnabled },
        { r with environments := r.environments.map (fun e =>
            if e.ID == id then
              { e with Name := opts.Name, CostEstimationEnabled := opts.CostEstimationEnabled }
            else e) })
    | none => (.error .ErrResourceNotFound, r)
  EnvironmentsDelete id r :=
    match r.environments.find? (fun e => e.ID == id) with
    | some _ => (none, { r with environments := r.environments.filter (fun e => e.ID != id) })
    | none => (some .ErrResourceNotFound, r)
  EnvironmentTagsAdd id tags r :=
    (none, { r with environments := r.environments.map (fun e =>
      if e.ID == id then { e with Tags := e.Tags ++ tags.map (fun t => t.ID) } else e) })
  EnvironmentTagsDelete id tags r :=
    (none, { r with environments := r.environments.map (fun e =>
      if e.ID == id then
        { e with Tags := e.Tags.filter (fun x => decide (x ∉ tags.map (fun t => t.ID))) }
      else e) })

/-- The fixed answers of a scripted remote. -/
structure Script where
  team : Except GoError Team
  teamUpdate : Except GoError Team
  environment : Except GoError Environment
  environmentUpdate : Except GoError Environment
  environmentDelete : Option GoError
  tagsAdd : Option GoError
  tagsDelete : Option GoError

/-- The client of a scripted remote: every operation gives its fixed answer. -/
def scriptClient (s : Script) : Client Unit where
  TeamsRead _ r := (s.team, r)
  TeamsUpdate _ _ r := (s.teamUpdate, r)
  EnvironmentsRead _ r := (s.environment, r)
  EnvironmentsUpdate _ _ r := (s.environmentUpdate, r)
  EnvironmentsDelete _ r := (s.environmentDelete, r)
  EnvironmentTagsAdd _ _ r := (s.tagsAdd, r)
  EnvironmentTagsDelete _ _ r := (s.tagsDelete, r)

/-- The calls a run has added to the log of the world `w` it started in. -/
def newCalls (w w1 : World σ) : List Call :=
  w1.log.drop w.log.length

/-- Whether a call is a tag operation, `EnvironmentTags.Add` or
`EnvironmentTags.Delete`. -/
def Call.isTagCall : Call → Bool
  | .EnvironmentTagsAdd _ _ => true
  | .EnvironmentTagsDelete _ _ => true
  | _ => false

/-- The identifiers of a list of tag relations. -/
def tagIDs (tags : List TagRelation) : List String :=
  tags.map (fun t => t.ID)

/-- The options `resourceScalrEnvironmentUpdate` sends for the data `d` once both
identifier lists have passed validation (lines 254-270). -/
def environmentUpdateOptions (d : EnvironmentData) : EnvironmentUpdateOptions :=
  { Name := d.name
    CostEstimationEnabled := d.cost_estimation_enabled
    CloudCredentials := d.cloud_credentials
    PolicyGroups := d.policy_groups
    DefaultProviderConfigurations := d.default_provider_configurations.List }

/-- The tag calls expected of the tag phase started on the remote state `r`: the
add call when there is a tag to add, then the delete call when there is a tag
to delete and the add call, if made, has not failed. -/
def tagPhaseCalls (c : Client σ) (d : EnvironmentData) (r : σ) : List Call :=
  (if tagsToAdd d = [] then [] else [Call.EnvironmentTagsAdd d.Id (tagsToAdd d)]) ++
    (if tagsToDelete d = [] ∨
        (tagsToAdd d ≠ [] ∧ (c.EnvironmentTagsAdd d.Id (tagsToAdd d) r).1 ≠ none)
      then []
      else [Call.EnvironmentTagsDelete d.Id (tagsToDelete d)])

/-- A remote environment with the tags `tag-a` and `tag-b`. -/
def sampleEnvironment : Environment :=
  { ID := "env-1", Name := "dev", AccountID := "acc-1", CostEstimationEnabled := false,
    Status := "Active", DefaultProviderConfigurations := [], CreatedBy := none,
    CloudCredentials := [], PolicyGroups := [], Tags := ["tag-a", "tag-b"] }

/-- The data of an update of `sampleEnvironment` whose tags change from
`tag-a`, `tag-b` to `tag-b`, `tag-c`. -/
def sampleEnvironmentData : EnvironmentData :=
  { Id := "env-1", name := "dev", cost_estimation_enabled := false, status := "Active",
    created_by := [], account_id := "acc-1", cloud_credentials := [], policy_groups := [],
    default_provider_configurations := [], tag_ids_old := ["tag-a", "tag-b"],
    tag_ids := ["tag-b", "tag-c"] }

/-- A team `team-1` with the members `u1` and `u2`. -/
def sampleTeam : Team :=
  { ID := "team-1", Users := [User.ofID "u1", User.ofID "u2"] }

/-- An in-memory remote holding `sampleTeam` and `sampleEnvironment`. -/
def sampleRemote : MemRemote :=
  { teams := [sampleTeam], environments := [sampleEnvironment] }

/-- A validation of identifier lists that accepts every list. -/
def acceptAll : List String → Option GoError :=
  fun _ => none

/-- A script in which every operation succeeds except `EnvironmentTags.Add`. -/
def addFailsScript : Script :=
  { team := .ok sampleTeam, teamUpdate := .ok sampleTeam, environment := .ok sampleEnvironment,
    environmentUpdate := .ok sampleEnvironment, environmentDelete := none,
    tagsAdd := some (.msg "tag service unavailable"), tagsDelete := none }

/-- The data of a membership of the user `u3` in `team-1`, not yet created. -/
def sampleMembershipData : MembershipData :=
  { Id := "", user_id := "u3", team_id := "team-1" }

/-- A script whose team read reports that the team is not found. -/
def teamGoneScript : Script :=
  { team := .error .ErrResourceNotFound, teamUpdate := .ok sampleTeam,
    environment := .ok sampleEnvironment, environmentUpdate := .ok sampleEnvironment,
    environmentDelete := some .ErrResourceNotFound, tagsAdd := none, tagsDelete := none }

/-- The version-0 document of the migration test. -/
def testResourceScalrWorkspaceStateDataV0 : Doc :=
  [("id", .str "my-org/test"), ("external_id", .str "ws-123")]

/-- The version-1 document with a `vcs_repo` of the migration test. -/
def testResourceScalrWorkspaceStateDataV1VcsRepo : Doc :=
  [("id", .str "my-org/test"),
    ("vcs_repo", .list [.map [("oauth_token_id", .str "test_provider_id"),
      ("identifier", .str "test_identifier")]])]

/-- The version-3 document of the migration test, with the flag `b`. -/
def testResourceScalrWorkspaceStateDataV3Operations (b : Bool) : Doc :=
  [("operations", .bool b)]

/-! ## Service account data source (`data_source_scalr_service_account.go`) -/

/-- Go `scalr.ServiceAccount`, with the fields the provider reads. -/
structure ServiceAccount where
  ID : String
  Name : String
  Email : String
  Description : String
  Status : String
  CreatedBy : Option User
  deriving DecidableEq, Repr

/-- Go `scalr.ServiceAccountListOptions`, with the fields the provider sets. -/
structure ServiceAccountListOptions where
  Email : String
  Account : String
  Include : String
  deriving DecidableEq, Repr

/-- Go `scalr.ServiceAccountList`: the listed items and the `TotalCount` of the
pagination, a Go `int`. -/
structure ServiceAccountList where
  Items : List ServiceAccount
  TotalCount : Int
  deriving DecidableEq, Repr

/-- One call on `scalrClient.ServiceAccounts`, with its arguments. -/
inductive ServiceAccountCall where
  | ServiceAccountsRead (id : String)
  | ServiceAccountsList (options : ServiceAccountListOptions)
  deriving DecidableEq, Repr

/-- The part `scalrClient.ServiceAccounts` of the remote API client over a
remote state `σ`. -/
structure ServiceAccountsClient (σ : Type) where
  ServiceAccountsRead : String → σ → Except GoError ServiceAccount × σ
  ServiceAccountsList : ServiceAccountListOptions → σ → Except GoError ServiceAccountList × σ

/-- The `*schema.ResourceData` of the service account data source: the
identifier `d.Id()` that `d.SetId` sets, the configured field `id` that
`d.Get("id")` reads, and the other fields. -/
structure ServiceAccountData where
  Id : String
  id : String
  name : String
  email : String
  description : String
  status : String
  account_id : String
  created_by : List CreatedBy
  deriving DecidableEq, Repr

/-- What a run of the data source read leaves: the diagnostics it returns with
the data it has set (`none` when the run stops in the Go runtime error of
indexing an empty list), the remote state, and the calls it has made. -/
structure ServiceAccountRun (σ : Type) where
  result : Option (Option GoError × ServiceAccountData)
  remote : σ
  calls : List ServiceAccountCall

/-- The list options of `dataSourceScalrServiceAccountRead` (lines 86-90). -/
def serviceAccountListOptions (d : ServiceAccountData) : ServiceAccountListOptions :=
  { Email := d.email, Account := d.account_id, Include := "created-by" }

/-- The end of `dataSourceScalrServiceAccountRead` (lines 110-124): the fields
are set from the service account `sa`, and `d.SetId(sa.ID)` sets the identifier
and with it the attribute `id`. -/
def setServiceAccount (d : ServiceAccountData) (sa : ServiceAccount) : ServiceAccountData :=
  { d with
    id := sa.ID
    name := sa.Name
    email := sa.Email
    description := sa.Description
    status := sa.Status
    created_by :=
      match sa.CreatedBy with
      | none => []
      | some u => [{ username := u.Username, email := u.Email, full_name := u.FullName }]
    Id := sa.ID }

/-- Go `dataSourceScalrServiceAccountRead`. -/
def dataSourceScalrServiceAccountRead (c : ServiceAccountsClient σ) (d : ServiceAccountData)
    (r : σ) : ServiceAccountRun σ :=
  if d.id ≠ "" then
    match c.ServiceAccountsRead d.id r with
    | (.error err, r1) =>
      { result := some (some (.msg ("Error retrieving service account: " ++ err.Error)), d),
        remote := r1, calls := [.ServiceAccountsRead d.id] }
    | (.ok sa, r1) =>
      { result := some (none, setServiceAccount d sa), remote := r1,
        calls := [.ServiceAccountsRead d.id] }
  else
    match c.ServiceAccountsList (serviceAccountListOptions d) r with
    | (.error err, r1) =>
      { result := some (some (.msg ("Error retrieving service account: " ++ err.Error)), d),
        remote := r1, calls := [.ServiceAccountsList (serviceAccountListOptions d)] }
    | (.ok sas, r1) =>
      if sas.TotalCount > 1 then
        { result := some (some (.msg ("Your query returned more than one result. " ++
            "Please try a more specific search criteria.")), d),
          remote := r1, calls := [.ServiceAccountsList (serviceAccountListOptions d)] }
      else if sas.TotalCount = 0 then
        { result := some (some (.msg ("Could not find service account " ++ d.account_id ++
            "/" ++ d.email)), d),
          remote := r1, calls := [.ServiceAccountsList (serviceAccountListOptions d)] }
      else
        match sas.Items with
        | [] =>
          { result := none, remote := r1,
            calls := [.ServiceAccountsList (serviceAccountListOptions d)] }
        | sa :: _ =>
          { result := some (none, setServiceAccount d sa), remote := r1,
            calls := [.ServiceAccountsList (serviceAccountListOptions d)] }

/-- The client of a scripted remote of service accounts: both operations give
their fixed answer. -/
def scriptServiceAccounts (read : Except GoError ServiceAccount)
    (list : Except GoError ServiceAccountList) : ServiceAccountsClient Unit where
  ServiceAccountsRead _ r := (read, r)
  ServiceAccountsList _ r := (list, r)

/-- A service account `sa-1` of the account `acc-1`. -/
def sampleServiceAccount : ServiceAccount :=
  { ID := "sa-1", Name := "deployer", Email := "deployer@acc-1.scalr.io",
    Description := "", Status := "Active", CreatedBy := none }

/-- Another service account, `sa-2`. -/
def otherServiceAccount : ServiceAccount :=
  { ID := "sa-2", Name := "auditor", Email := "auditor@acc-1.scalr.io",
    Description := "", Status := "Active", CreatedBy := none }

/-- The data of a lookup by email in the account `acc-1`: no `id` is given. -/
def lookupByEmailData : ServiceAccountData :=
  { Id := "", id := "", name := "", email := "deployer@acc-1.scalr.io", description := "",
    status := "", account_id := "acc-1", created_by := [] }

/-- The data of a lookup by the identifier `sa-2`. -/
def lookupByIdData : ServiceAccountData :=
  { Id := "", id := "sa-2", name := "", email := "", description := "", status := "",
    account_id := "acc-1", created_by := [] }

/-- The data of a membership of the user `u1`, already a member, in `team-1`. -/
def repeatedMembershipData : MembershipData :=
  { Id := "", user_id := "u1", team_id := "team-1" }

/-- The data of an update of `env-1` whose single tag changes from
`tag-i29f6toj0yl9` to `tag-x8tpnbvu90qq`, two identifiers of one hash code. -/
def collidingEnvironmentData : EnvironmentData :=
  { Id := "env-1", name := "dev", cost_estimation_enabled := false, status := "Active",
    created_by := [], account_id := "acc-1", cloud_credentials := [], policy_groups := [],
    default_provider_configurations := [], tag_ids_old := ["tag-i29f6toj0yl9"],
    tag_ids := ["tag-x8tpnbvu90qq"] }

/-- An in-memory remote in which `team-1` lists the new member `u3` between
`u1` and `u2`. -/
def reorderedRemote : MemRemote :=
  { teams := [{ ID := "team-1", Users := [User.ofID "u1", User.ofID "u3", User.ofID "u2"] }],
    environments := [sampleEnvironment] }

/-- The identifiers of a user list. -/
def userIDs (users : List User) : List String :=
  users.map (fun u => u.ID)

/-- The `TeamsUpdate` calls of a log: the team and the user list written back. -/
def teamWrites : List Call → List (String × List User)
  | [] => []
  | .TeamsUpdate teamID opts :: rest => (teamID, opts.Users) :: teamWrites rest
  | _ :: rest => teamWrites rest

/-! ## Lemmas on the codec -/

theorem cutFirst_eq_none {sep : Char} {s : List Char} :
    cutFirst sep s = none ↔ sep ∉ s := by
  induction s with
  | nil => simp [cutFirst]
  | cons c cs ih =>
    by_cases h : c = sep
    · simp [cutFirst, h]
    · have h2 : ¬ sep = c := fun e => h e.symm
      cases hc : cutFirst sep cs with
      | none => simp [cutFirst, h, hc, h2, ih.mp hc]
      | some p =>
        have : ¬ sep ∉ cs := fun hn => by simp [ih.mpr hn] at hc
        simp [cutFirst, h, hc, h2]
        simpa using this

theorem cutFirst_some {sep : Char} {s a b : List Char}
    (h : cutFirst sep s = some (a, b)) : s = a ++ sep :: b ∧ sep ∉ a := by
  induction s generalizing a b with
  | nil => simp [cutFirst] at h
  | cons c cs ih =>
    by_cases hc : c = sep
    · simp [cutFirst, hc] at h
      obtain ⟨rfl, rfl⟩ := h
      simp [hc]
    · cases hr : cutFirst sep cs with
      | none => simp [cutFirst, hc, hr] at h
      | some p =>
        obtain ⟨a1, b1⟩ := p
        simp [cutFirst, hc, hr] at h
        obtain ⟨rfl, rfl⟩ := h
        obtain ⟨e, hn⟩ := ih hr
        refine ⟨by simp [← e], ?_⟩
        simp only [List.mem_cons, not_or]
        exact ⟨fun e2 => hc e2.symm, hn⟩

theorem cutFirst_append (sep : Char) (a b : List Char) (h : sep ∉ a) :
    cutFirst sep (a ++ sep :: b) = some (a, b) := by
  induction a with
  | nil => simp [cutFirst]
  | cons c cs ih =>
    simp only [List.mem_cons, not_or] at h
    have hc : ¬ c = sep := fun e => h.1 e.symm
    simp [cutFirst, hc, ih h.2]

theorem pack_data (userID teamID : String) :
    (packIamUserMembershipID userID teamID).data = userID.data ++ '/' :: teamID.data := by
  simp [packIamUserMembershipID, String.data_append]

theorem unpack_of_cut {id : String} {a b : List Char}
    (h : cutFirst '/' id.data = some (a, b)) :
    unpackIamUserMembershipID id = (String.mk a, String.mk b, none) := by
  simp [unpackIamUserMembershipID, stringsSplitN, splitNChars, h]

theorem unpack_of_no_sep {id : String} (h : cutFirst '/' id.data = none) :
    unpackIamUserMembershipID id =
      ("", "", some (.msg ("invalid iam user membership ID format: " ++ id ++
        " (expected <user_id>/<team_id>"))) := by
  simp [unpackIamUserMembershipID, stringsSplitN, splitNChars, h]

theorem unpack_pack (userID teamID : String) (h : '/' ∉ userID.data) :
    unpackIamUserMembershipID (packIamUserMembershipID userID teamID) =
      (userID, teamID, none) := by
  have hc := cutFirst_append '/' userID.data teamID.data h
  rw [← pack_data] at hc
  rw [unpack_of_cut hc]

/-! ## Claims -/

/-- C1: for every pair of strings `userID`, `teamID` that do not contain the
separator `"/"`, unpacking the packed identifier returns `(userID, teamID)`
with a nil error. -/
theorem C1_unpack_pack_roundtrip (userID teamID : String)
    (hu : '/' ∉ userID.data) (_ht : '/' ∉ teamID.data) :
    unpackIamUserMembershipID (packIamUserMembershipID userID teamID) =
      (userID, teamID, none) :=
  unpack_pack userID teamID hu

theorem C1_unpack_pack_roundtrip_witness :
    ('/' ∉ "user-1".data ∧ '/' ∉ "team-1".data) ∧
      unpackIamUserMembershipID (packIamUserMembershipID "user-1" "team-1") =
        ("user-1", "team-1", none) :=
  ⟨⟨by decide, by decide⟩, C1_unpack_pack_roundtrip "user-1" "team-1" (by decide) (by decide)⟩

/-- C2: for every string `id`, `unpackIamUserMembershipID id` fails, with empty
components and a non-nil error, if and only if `id` contains no `"/"`; when
`id` contains `"/"` it succeeds with `userID` the text before the first `"/"`
(so `userID` holds no `"/"`) and `teamID` all the text after it, so that
`userID ++ "/" ++ teamID = id`. -/
theorem C2_unpack_fails_iff_no_separator (id : String) :
    (((unpackIamUserMembershipID id).2.2 ≠ none) ↔ '/' ∉ id.data) ∧
    ('/' ∉ id.data →
      (unpackIamUserMembershipID id).1 = "" ∧ (unpackIamUserMembershipID id).2.1 = "" ∧
      (unpackIamUserMembershipID id).2.2 ≠ none) ∧
    ('/' ∈ id.data →
      (unpackIamUserMembershipID id).2.2 = none ∧
      '/' ∉ (unpackIamUserMembershipID id).1.data ∧
      (unpackIamUserMembershipID id).1 ++ "/" ++ (unpackIamUserMembershipID id).2.1 = id) := by
  cases hc : cutFirst '/' id.data with
  | none =>
    have hn : '/' ∉ id.data := cutFirst_eq_none.mp hc
    rw [unpack_of_no_sep hc]
    simp [hn]
  | some p =>
    obtain ⟨a, b⟩ := p
    have hin : '/' ∈ id.data := by
      by_contra hn
      rw [cutFirst_eq_none.mpr hn] at hc
      cases hc
    obtain ⟨e, hna⟩ := cutFirst_some hc
    rw [unpack_of_cut hc]
    refine ⟨by simp [hin], fun hn => absurd hin hn, fun _ => ⟨rfl, hna, ?_⟩⟩
    apply String.ext
    simp [String.data_append, e]

theorem C2_unpack_fails_iff_no_separator_witness :
    unpackIamUserMembershipID "no-separator-here" =
      ("", "", some (.msg ("invalid iam user membership ID format: no-separator-here" ++
        " (expected <user_id>/<team_id>"))) ∧
    unpackIamUserMembershipID "u-1/t-1/x" = ("u-1", "t-1/x", none) ∧
    unpackIamUserMembershipID "/" = ("", "", none) ∧
    ('/' ∈ "u-1/t-1/x".data →
      (unpackIamUserMembershipID "u-1/t-1/x").2.2 = none ∧
      '/' ∉ (unpackIamUserMembershipID "u-1/t-1/x").1.data ∧
      (unpackIamUserMembershipID "u-1/t-1/x").1 ++ "/" ++
        (unpackIamUserMembershipID "u-1/t-1/x").2.1 = "u-1/t-1/x") :=
  ⟨by decide, by decide, by decide, (C2_unpack_fails_iff_no_separator "u-1/t-1/x").2.2⟩

/-! ### Environment tags -/

theorem SchemaSet.mem_of_mem_items {s : SchemaSet} {x : String}
    (h : x ∈ SchemaSet.items s) : x ∈ s := by
  induction s with
  | nil => simp [SchemaSet.items] at h
  | cons y ys ih =>
    simp only [SchemaSet.items, List.mem_cons, List.mem_filter] at h
    rcases h with h | h
    · exact List.mem_cons.mpr (Or.inl h)
    · exact List.mem_cons.mpr (Or.inr (ih h.1))

/-- Every item the set was built from has its code among the keys of the map. -/
theorem SchemaSet.hash_mem_codes {s : SchemaSet} {x : String} (h : x ∈ s) :
    SchemaSet.hash x ∈ SchemaSet.codes s := by
  induction s with
  | nil => simp at h
  | cons y ys ih =>
    simp only [SchemaSet.codes, SchemaSet.items, List.map_cons, List.mem_cons]
    by_cases hxy : SchemaSet.hash x = SchemaSet.hash y
    · exact Or.inl hxy
    · right
      rcases List.mem_cons.mp h with h | h
      · exact absurd (h ▸ rfl) hxy
      · have hm := ih h
        simp only [SchemaSet.codes, List.mem_map] at hm ⊢
        obtain ⟨z, hz, hzx⟩ := hm
        refine ⟨z, ?_, hzx⟩
        simp only [List.mem_filter, bne_iff_ne, ne_eq]
        exact ⟨hz, fun e => hxy (hzx.symm.trans e)⟩

theorem SchemaSet.mem_codes {s : SchemaSet} {k : Nat} (h : k ∈ SchemaSet.codes s) :
    ∃ x ∈ s, SchemaSet.hash x = k := by
  simp only [SchemaSet.codes, List.mem_map] at h
  obtain ⟨x, hx, hk⟩ := h
  exact ⟨x, SchemaSet.mem_of_mem_items hx, hk⟩

/-- When no two different items of `s` share a code, the set holds every item
it was built from. -/
theorem SchemaSet.mem_items_of_injective {s : SchemaSet}
    (hinj : ∀ x ∈ s, ∀ y ∈ s, SchemaSet.hash x = SchemaSet.hash y → x = y)
    {x : String} (h : x ∈ s) : x ∈ SchemaSet.items s := by
  have hc := SchemaSet.hash_mem_codes h
  simp only [SchemaSet.codes, List.mem_map] at hc
  obtain ⟨z, hz, hzx⟩ := hc
  have := hinj z (SchemaSet.mem_of_mem_items hz) x h hzx
  exact this ▸ hz

/-- A list without two items of one code is held as it is. -/
theorem SchemaSet.items_of_nodup {s : SchemaSet} (h : (s.map SchemaSet.hash).Nodup) :
    SchemaSet.items s = s := by
  induction s with
  | nil => rfl
  | cons y ys ih =>
    simp only [List.map_cons, List.nodup_cons, List.mem_map, not_exists, not_and] at h
    simp only [SchemaSet.items, ih h.2]
    congr 1
    rw [List.filter_eq_self]
    intro a ha
    simp only [bne_iff_ne, ne_eq]
    exact h.1 a ha

theorem SchemaSet.items_nodup (s : SchemaSet) :
    ((SchemaSet.items s).map SchemaSet.hash).Nodup := by
  induction s with
  | nil => simp [SchemaSet.items]
  | cons y ys ih =>
    simp only [SchemaSet.items, List.map_cons, List.nodup_cons, List.mem_map, not_exists,
      not_and]
    constructor
    · intro a ha
      simp only [List.mem_filter, bne_iff_ne, ne_eq] at ha
      exact ha.2
    · exact (ih.sublist ((List.filter_sublist _).map _))

theorem SchemaSet.items_Difference (s o : SchemaSet) :
    SchemaSet.items (SchemaSet.Difference s o) = SchemaSet.Difference s o := by
  apply SchemaSet.items_of_nodup
  exact (SchemaSet.items_nodup s).sublist ((List.filter_sublist _).map _)

theorem mem_Difference {s o : SchemaSet} {x : String} :
    x ∈ SchemaSet.Difference s o ↔
      x ∈ SchemaSet.items s ∧ SchemaSet.hash x ∉ SchemaSet.codes o := by
  simp [SchemaSet.Difference]

theorem tagIDs_toAdd (d : EnvironmentData) :
    tagIDs (tagsToAdd d) = SchemaSet.Difference d.tag_ids d.tag_ids_old := by
  simp [tagIDs, tagsToAdd, InterfaceArrToTagRelationArr, SchemaSet.List, Function.comp_def,
    SchemaSet.items_Difference]

theorem tagIDs_toDelete (d : EnvironmentData) :
    tagIDs (tagsToDelete d) = SchemaSet.Difference d.tag_ids_old d.tag_ids := by
  simp [tagIDs, tagsToDelete, InterfaceArrToTagRelationArr, SchemaSet.List, Function.comp_def,
    SchemaSet.items_Difference]

theorem tags_nil_of_ids_nil {tags : List TagRelation} (h : tagIDs tags = []) : tags = [] := by
  simpa [tagIDs] using h

theorem Difference_nil_of_subset {s o : SchemaSet}
    (h : ∀ x ∈ SchemaSet.items s, x ∈ SchemaSet.items o) : SchemaSet.Difference s o = [] := by
  simp only [SchemaSet.Difference, List.filter_eq_nil_iff, decide_eq_true_eq, not_not]
  intro x hx
  exact SchemaSet.hash_mem_codes (SchemaSet.mem_of_mem_items (h x hx))

theorem no_change_tags {d : EnvironmentData} (h : d.HasChangeTagIDs = false) :
    tagsToAdd d = [] ∧ tagsToDelete d = [] := by
  simp only [EnvironmentData.HasChangeTagIDs, SchemaSet.Equal, Bool.not_eq_eq_eq_not, Bool.not_false,
    Bool.and_eq_true, decide_eq_true_eq] at h
  constructor
  · apply tags_nil_of_ids_nil
    rw [tagIDs_toAdd]
    exact Difference_nil_of_subset h.2
  · apply tags_nil_of_ids_nil
    rw [tagIDs_toDelete]
    exact Difference_nil_of_subset h.1

/-- The calls the tag phase adds to the log. -/
theorem updateEnvironmentTags_log (c : Client σ) (d : EnvironmentData) (w : World σ) :
    (updateEnvironmentTags c d w).2.log = w.log ++ tagPhaseCalls c d w.remote := by
  unfold tagPhaseCalls
  unfold updateEnvironmentTags
  by_cases hch : d.HasChangeTagIDs = true
  · simp only [hch, if_true]
    by_cases ha : tagsToAdd d = []
    · by_cases hd : tagsToDelete d = []
      · simp [ha, hd]
      · have hd2 : 0 < (tagsToDelete d).length := List.length_pos.mpr hd
        simp only [ha, List.length_nil, gt_iff_lt, lt_self_iff_false, if_false, hd2, if_true]
        cases hr : (c.EnvironmentTagsDelete d.Id (tagsToDelete d) w.remote).1 <;>
          simp [callEnvironmentTagsDelete, hr, hd]
    · have ha2 : 0 < (tagsToAdd d).length := List.length_pos.mpr ha
      simp only [gt_iff_lt, ha2, if_true]
      cases hr : (c.EnvironmentTagsAdd d.Id (tagsToAdd d) w.remote).1 with
      | some err => simp [callEnvironmentTagsAdd, hr, ha]
      | none =>
        by_cases hd : tagsToDelete d = []
        · simp [callEnvironmentTagsAdd, hr, ha, hd]
        · have hd2 : 0 < (tagsToDelete d).length := List.length_pos.mpr hd
          simp only [callEnvironmentTagsAdd, hr, hd2, if_true]
          cases hr2 : (c.EnvironmentTagsDelete d.Id (tagsToDelete d)
              (c.EnvironmentTagsAdd d.Id (tagsToAdd d) w.remote).2).1 <;>
            simp [callEnvironmentTagsDelete, hr2, hd, ha]
  · have hch2 : d.HasChangeTagIDs = false := by simpa using hch
    obtain ⟨ha, hd⟩ := no_change_tags hch2
    simp [hch2, ha, hd]

theorem newCalls_append (w w1 : World σ) (calls : List Call) (h : w1.log = w.log ++ calls) :
    newCalls w w1 = calls := by
  simp [newCalls, h]

/-- When the add call is made and fails, the tag phase ends with its error
right after that call. -/
theorem updateEnvironmentTags_add_fails (c : Client σ) (d : EnvironmentData) (w : World σ)
    (err : GoError) (ha : tagsToAdd d ≠ [])
    (hr : (c.EnvironmentTagsAdd d.Id (tagsToAdd d) w.remote).1 = some err) :
    updateEnvironmentTags c d w =
      (some (.msg ("Error adding tags to environment " ++ d.Id ++ ": " ++ err.Error)),
        { remote := (c.EnvironmentTagsAdd d.Id (tagsToAdd d) w.remote).2,
          log := w.log ++ [Call.EnvironmentTagsAdd d.Id (tagsToAdd d)] }) := by
  have hch : d.HasChangeTagIDs = true := by
    by_contra hn
    exact ha (no_change_tags (by simpa using hn)).1
  have ha2 : 0 < (tagsToAdd d).length := List.length_pos.mpr ha
  simp [updateEnvironmentTags, hch, ha2, callEnvironmentTagsAdd, hr]

theorem environmentRead_log (c : Client σ) (d : EnvironmentData) (w : World σ) :
    (resourceScalrEnvironmentRead c d w).2.2.log = w.log ++ [Call.EnvironmentsRead d.Id] := by
  unfold resourceScalrEnvironmentRead
  cases hr : (c.EnvironmentsRead d.Id w.remote).1 with
  | error err => cases hn : err.isNotFound <;> simp [callEnvironmentsRead, hr, hn]
  | ok e => simp [callEnvironmentsRead, hr]

/-- A failed validation of either identifier list ends the update before any call. -/
theorem update_parse_fails (validate : List String → Option GoError) (c : Client σ)
    (d : EnvironmentData) (w : World σ)
    (h : validate d.cloud_credentials ≠ none ∨ validate d.policy_groups ≠ none) :
    (resourceScalrEnvironmentUpdate validate c d w).1 ≠ none ∧
      (resourceScalrEnvironmentUpdate validate c d w).2.2 = w := by
  unfold resourceScalrEnvironmentUpdate parseCloudCredentialDefinitions
    parsePolicyGroupDefinitions
  cases h1 : validate d.cloud_credentials with
  | some e => simp
  | none =>
    cases h2 : validate d.policy_groups with
    | some e => simp
    | none => simp [h1, h2] at h

/-- A failed `Environments.Update` ends the update right after that call. -/
theorem update_call_fails (validate : List String → Option GoError) (c : Client σ)
    (d : EnvironmentData) (w : World σ) (err : GoError)
    (h1 : validate d.cloud_credentials = none) (h2 : validate d.policy_groups = none)
    (h3 : (c.EnvironmentsUpdate d.Id (environmentUpdateOptions d) w.remote).1 = .error err) :
    (resourceScalrEnvironmentUpdate validate c d w).1 =
        some (.msg ("Error updating environment " ++ d.Id ++ ": " ++ err.Error)) ∧
      (resourceScalrEnvironmentUpdate validate c d w).2.2.log =
        w.log ++ [Call.EnvironmentsUpdate d.Id (environmentUpdateOptions d)] := by
  unfold environmentUpdateOptions at h3
  simp [resourceScalrEnvironmentUpdate, parseCloudCredentialDefinitions,
    parsePolicyGroupDefinitions, h1, h2, callEnvironmentsUpdate, h3, environmentUpdateOptions]

/-- After a successful `Environments.Update` the update runs the tag phase and,
when that phase has no error, the follow-up read. -/
theorem update_reaches_tags (validate : List String → Option GoError) (c : Client σ)
    (d : EnvironmentData) (w : World σ) (e : Environment)
    (h1 : validate d.cloud_credentials = none) (h2 : validate d.policy_groups = none)
    (h3 : (c.EnvironmentsUpdate d.Id (environmentUpdateOptions d) w.remote).1 = .ok e) :
    resourceScalrEnvironmentUpdate validate c d w =
      match updateEnvironmentTags c d
          { remote := (c.EnvironmentsUpdate d.Id (environmentUpdateOptions d) w.remote).2,
            log := w.log ++ [Call.EnvironmentsUpdate d.Id (environmentUpdateOptions d)] } with
      | (some err, w2) => (some err, d, w2)
      | (none, w2) => resourceScalrEnvironmentRead c d w2 := by
  unfold environmentUpdateOptions at h3
  simp [resourceScalrEnvironmentUpdate, parseCloudCredentialDefinitions,
    parsePolicyGroupDefinitions, h1, h2, callEnvironmentsUpdate, h3, environmentUpdateOptions]

/-- The calls of an update that reaches the tag phase. -/
theorem update_reaches_log (validate : List String → Option GoError) (c : Client σ)
    (d : EnvironmentData) (w : World σ) (e : Environment)
    (h1 : validate d.cloud_credentials = none) (h2 : validate d.policy_groups = none)
    (h3 : (c.EnvironmentsUpdate d.Id (environmentUpdateOptions d) w.remote).1 = .ok e) :
    ∃ tail : List Call, (tail = [] ∨ tail = [Call.EnvironmentsRead d.Id]) ∧
      (resourceScalrEnvironmentUpdate validate c d w).2.2.log =
        w.log ++ (Call.EnvironmentsUpdate d.Id (environmentUpdateOptions d) ::
          tagPhaseCalls c d (c.EnvironmentsUpdate d.Id (environmentUpdateOptions d) w.remote).2
            ++ tail) := by
  rw [update_reaches_tags validate c d w e h1 h2 h3]
  have hl := updateEnvironmentTags_log c d
    { remote := (c.EnvironmentsUpdate d.Id (environmentUpdateOptions d) w.remote).2,
      log := w.log ++ [Call.EnvironmentsUpdate d.Id (environmentUpdateOptions d)] }
  generalize updateEnvironmentTags c d
    { remote := (c.EnvironmentsUpdate d.Id (environmentUpdateOptions d) w.remote).2,
      log := w.log ++ [Call.EnvironmentsUpdate d.Id (environmentUpdateOptions d)] } = res at hl
  obtain ⟨r, w2⟩ := res
  cases r with
  | some err => exact ⟨[], Or.inl rfl, by simpa using hl⟩
  | none =>
    refine ⟨[Call.EnvironmentsRead d.Id], Or.inr rfl, ?_⟩
    simp only [environmentRead_log]
    simp at hl
    simp [hl]

/-- The calls of any update: none, the `Environments.Update` call alone, or that
call, the tag phase and possibly the follow-up read. -/
theorem update_newCalls_cases (validate : List String → Option GoError) (c : Client σ)
    (d : EnvironmentData) (w : World σ) :
    newCalls w (resourceScalrEnvironmentUpdate validate c d w).2.2 = [] ∨
    newCalls w (resourceScalrEnvironmentUpdate validate c d w).2.2 =
      [Call.EnvironmentsUpdate d.Id (environmentUpdateOptions d)] ∨
    ∃ tail : List Call, (tail = [] ∨ tail = [Call.EnvironmentsRead d.Id]) ∧
      newCalls w (resourceScalrEnvironmentUpdate validate c d w).2.2 =
        Call.EnvironmentsUpdate d.Id (environmentUpdateOptions d) ::
          tagPhaseCalls c d (c.EnvironmentsUpdate d.Id (environmentUpdateOptions d) w.remote).2
            ++ tail := by
  cases h1 : validate d.cloud_credentials with
  | some e1 =>
    left
    have h := (update_parse_fails validate c d w (Or.inl (by simp [h1]))).2
    simp [newCalls, h]
  | none =>
    cases h2 : validate d.policy_groups with
    | some e2 =>
      left
      have h := (update_parse_fails validate c d w (Or.inr (by simp [h2]))).2
      simp [newCalls, h]
    | none =>
      cases h3 : (c.EnvironmentsUpdate d.Id (environmentUpdateOptions d) w.remote).1 with
      | error err =>
        right; left
        exact newCalls_append _ _ _ (update_call_fails validate c d w err h1 h2 h3).2
      | ok e =>
        right; right
        obtain ⟨tail, ht, hl⟩ := update_reaches_log validate c d w e h1 h2 h3
        exact ⟨tail, ht, newCalls_append _ _ _ hl⟩

theorem mem_tagPhaseCalls_add {c : Client σ} {d : EnvironmentData} {r : σ} {id : String}
    {tags : List TagRelation} (h : Call.EnvironmentTagsAdd id tags ∈ tagPhaseCalls c d r) :
    id = d.Id ∧ tags = tagsToAdd d ∧ tags ≠ [] := by
  unfold tagPhaseCalls at h
  by_cases ha : tagsToAdd d = []
  · simp only [ha, if_true, List.nil_append] at h
    split at h <;> simp at h
  · simp only [ha, if_false, List.mem_append, List.mem_singleton, Call.EnvironmentTagsAdd.injEq] at h
    rcases h with h | h
    · exact ⟨h.1, h.2, h.2 ▸ ha⟩
    · split at h <;> simp at h

theorem mem_tagPhaseCalls_delete {c : Client σ} {d : EnvironmentData} {r : σ} {id : String}
    {tags : List TagRelation} (h : Call.EnvironmentTagsDelete id tags ∈ tagPhaseCalls c d r) :
    id = d.Id ∧ tags = tagsToDelete d ∧ tags ≠ [] := by
  unfold tagPhaseCalls at h
  by_cases hd : tagsToDelete d = []
  · simp only [hd, true_or, if_true, List.append_nil] at h
    split at h <;> simp at h
  · simp only [List.mem_append] at h
    rcases h with h | h
    · split at h <;> simp at h
    · split at h
      · simp at h
      · simp only [List.mem_singleton, Call.EnvironmentTagsDelete.injEq] at h
        exact ⟨h.1, h.2, h.2 ▸ hd⟩

/-- The tag calls of the tag phase, in order: the add call never follows the
delete call. -/
theorem tagPhaseCalls_shapes (c : Client σ) (d : EnvironmentData) (r : σ) :
    tagPhaseCalls c d r = [] ∨
    tagPhaseCalls c d r = [Call.EnvironmentTagsAdd d.Id (tagsToAdd d)] ∨
    tagPhaseCalls c d r = [Call.EnvironmentTagsDelete d.Id (tagsToDelete d)] ∨
    tagPhaseCalls c d r =
      [Call.EnvironmentTagsAdd d.Id (tagsToAdd d),
        Call.EnvironmentTagsDelete d.Id (tagsToDelete d)] := by
  unfold tagPhaseCalls
  split <;> split <;> simp

theorem tagPhaseCalls_filter (c : Client σ) (d : EnvironmentData) (r : σ) :
    (tagPhaseCalls c d r).filter Call.isTagCall = tagPhaseCalls c d r := by
  rcases tagPhaseCalls_shapes c d r with h | h | h | h <;> simp [h, Call.isTagCall]

/-- The tag calls of any update, in order. -/
theorem update_tagCalls (validate : List String → Option GoError) (c : Client σ)
    (d : EnvironmentData) (w : World σ) :
    (newCalls w (resourceScalrEnvironmentUpdate validate c d w).2.2).filter Call.isTagCall = [] ∨
    (newCalls w (resourceScalrEnvironmentUpdate validate c d w).2.2).filter Call.isTagCall =
      tagPhaseCalls c d (c.EnvironmentsUpdate d.Id (environmentUpdateOptions d) w.remote).2 := by
  rcases update_newCalls_cases validate c d w with h | h | ⟨tail, ht, h⟩
  · left; simp [h]
  · left; simp [h, Call.isTagCall]
  · right
    rw [h]
    rcases ht with rfl | rfl <;>
      simp [List.filter_cons, List.filter_append, Call.isTagCall, tagPhaseCalls_filter]

/-- C3, as stated, fails: the old tag set `tag-i29f6toj0yl9` and the new tag
set `tag-x8tpnbvu90qq` hold two different IDs of one hash code, under which the
SDK keys both; the two differences are empty, so the update makes no add and
no delete call, although the new ID is in `N` and not in `O`. -/
theorem C3_tag_difference_counterexample :
    SchemaSet.hash "tag-i29f6toj0yl9" = SchemaSet.hash "tag-x8tpnbvu90qq" ∧
    tagsToAdd collidingEnvironmentData = [] ∧
    tagsToDelete collidingEnvironmentData = [] ∧
    newCalls { remote := sampleRemote, log := [] }
        (resourceScalrEnvironmentUpdate acceptAll memClient collidingEnvironmentData
          { remote := sampleRemote, log := [] }).2.2 =
      [Call.EnvironmentsUpdate "env-1" (environmentUpdateOptions collidingEnvironmentData),
        Call.EnvironmentsRead "env-1"] ∧
    ¬ (∀ x, x ∈ tagIDs (tagsToAdd collidingEnvironmentData) ↔
      x ∈ collidingEnvironmentData.tag_ids ∧ x ∉ collidingEnvironmentData.tag_ids_old) := by
  have ha : tagsToAdd collidingEnvironmentData = [] := by
    set_option maxRecDepth 100000 in decide
  refine ⟨by set_option maxRecDepth 100000 in decide, ha,
    by set_option maxRecDepth 100000 in decide,
    by set_option maxRecDepth 100000 in decide, ?_⟩
  intro h
  have h2 := (h "tag-x8tpnbvu90qq").mpr ⟨by decide, by decide⟩
  rw [ha] at h2
  simp [tagIDs] at h2

/-- C3, amended: in `resourceScalrEnvironmentUpdate`, for every old tag set `O`
and new tag set `N` of `tag_ids`, the tags passed to the add operation are
exactly the IDs the set `N` holds whose hash code is not the code of an ID of
`O`, and the tags passed to the delete operation are exactly the IDs the set
`O` holds whose hash code is not the code of an ID of `N`; when no two
different IDs of `O` and `N` share a hash code, these are exactly the IDs in
`N` that are not in `O` and the IDs in `O` that are not in `N`. The two are
disjoint; every add and every delete call of the update carries exactly its
list, which is then non-empty; an update that gets past `Environments.Update`
makes the add call when there is a tag to add, and the delete call when there
is a tag to delete and the add call has not failed; when `O` and `N` are both
empty both lists are empty and no add or delete call is made. -/
theorem C3_tag_difference (validate : List String → Option GoError) (c : Client σ)
    (d : EnvironmentData) (w : World σ) :
    (∀ x, x ∈ tagIDs (tagsToAdd d) ↔
      x ∈ SchemaSet.items d.tag_ids ∧ SchemaSet.hash x ∉ SchemaSet.codes d.tag_ids_old) ∧
    (∀ x, x ∈ tagIDs (tagsToDelete d) ↔
      x ∈ SchemaSet.items d.tag_ids_old ∧ SchemaSet.hash x ∉ SchemaSet.codes d.tag_ids) ∧
    ((∀ x ∈ d.tag_ids ++ d.tag_ids_old, ∀ y ∈ d.tag_ids ++ d.tag_ids_old,
        SchemaSet.hash x = SchemaSet.hash y → x = y) →
      (∀ x, x ∈ tagIDs (tagsToAdd d) ↔ x ∈ d.tag_ids ∧ x ∉ d.tag_ids_old) ∧
      (∀ x, x ∈ tagIDs (tagsToDelete d) ↔ x ∈ d.tag_ids_old ∧ x ∉ d.tag_ids)) ∧
    (∀ x, x ∈ tagIDs (tagsToAdd d) → x ∉ tagIDs (tagsToDelete d)) ∧
    (∀ id tags, Call.EnvironmentTagsAdd id tags ∈
        newCalls w (resourceScalrEnvironmentUpdate validate c d w).2.2 →
      id = d.Id ∧ tags = tagsToAdd d ∧ tags ≠ []) ∧
    (∀ id tags, Call.EnvironmentTagsDelete id tags ∈
        newCalls w (resourceScalrEnvironmentUpdate validate c d w).2.2 →
      id = d.Id ∧ tags = tagsToDelete d ∧ tags ≠ []) ∧
    (∀ e, validate d.cloud_credentials = none → validate d.policy_groups = none →
      (c.EnvironmentsUpdate d.Id (environmentUpdateOptions d) w.remote).1 = .ok e →
      (tagsToAdd d ≠ [] →
        Call.EnvironmentTagsAdd d.Id (tagsToAdd d) ∈
          newCalls w (resourceScalrEnvironmentUpdate validate c d w).2.2) ∧
      (tagsToDelete d ≠ [] →
        (tagsToAdd d = [] ∨
          (c.EnvironmentTagsAdd d.Id (tagsToAdd d)
            (c.EnvironmentsUpdate d.Id (environmentUpdateOptions d) w.remote).2).1 = none) →
        Call.EnvironmentTagsDelete d.Id (tagsToDelete d) ∈
          newCalls w (resourceScalrEnvironmentUpdate validate c d w).2.2)) ∧
    (d.tag_ids_old = [] → d.tag_ids = [] →
      tagsToAdd d = [] ∧ tagsToDelete d = [] ∧
      ∀ call ∈ newCalls w (resourceScalrEnvironmentUpdate validate c d w).2.2,
        call.isTagCall = false) := by
  refine ⟨?_, ?_, ?_, ?_, ?_, ?_, ?_, ?_⟩
  · intro x
    rw [tagIDs_toAdd]; exact mem_Difference
  · intro x
    rw [tagIDs_toDelete]; exact mem_Difference
  · intro hinj
    have hN : ∀ x ∈ d.tag_ids, ∀ y ∈ d.tag_ids, SchemaSet.hash x = SchemaSet.hash y → x = y :=
      fun x hx y hy => hinj x (List.mem_append_left _ hx) y (List.mem_append_left _ hy)
    have hO : ∀ x ∈ d.tag_ids_old, ∀ y ∈ d.tag_ids_old,
        SchemaSet.hash x = SchemaSet.hash y → x = y :=
      fun x hx y hy => hinj x (List.mem_append_right _ hx) y (List.mem_append_right _ hy)
    constructor
    · intro x
      rw [tagIDs_toAdd, mem_Difference]
      constructor
      · rintro ⟨hx, hc⟩
        exact ⟨SchemaSet.mem_of_mem_items hx, fun h => hc (SchemaSet.hash_mem_codes h)⟩
      · rintro ⟨hx, hn⟩
        refine ⟨SchemaSet.mem_items_of_injective hN hx, ?_⟩
        intro hc
        obtain ⟨y, hy, hyx⟩ := SchemaSet.mem_codes hc
        have := hinj y (List.mem_append_right _ hy) x (List.mem_append_left _ hx) hyx
        exact hn (this ▸ hy)
    · intro x
      rw [tagIDs_toDelete, mem_Difference]
      constructor
      · rintro ⟨hx, hc⟩
        exact ⟨SchemaSet.mem_of_mem_items hx, fun h => hc (SchemaSet.hash_mem_codes h)⟩
      · rintro ⟨hx, hn⟩
        refine ⟨SchemaSet.mem_items_of_injective hO hx, ?_⟩
        intro hc
        obtain ⟨y, hy, hyx⟩ := SchemaSet.mem_codes hc
        have := hinj y (List.mem_append_left _ hy) x (List.mem_append_right _ hx) hyx
        exact hn (this ▸ hy)
  · intro x hx
    rw [tagIDs_toAdd] at hx
    rw [tagIDs_toDelete]
    intro hx2
    exact (mem_Difference.mp hx).2
      (SchemaSet.hash_mem_codes (SchemaSet.mem_of_mem_items (mem_Difference.mp hx2).1))
  · intro id tags h
    rcases update_newCalls_cases validate c d w with h0 | h0 | ⟨tail, ht, h0⟩
    · simp [h0] at h
    · simp [h0] at h
    · rw [h0] at h
      simp only [List.mem_cons, List.mem_append, reduceCtorEq, false_or] at h
      rcases h with h | h
      · exact mem_tagPhaseCalls_add h
      · rcases ht with rfl | rfl <;> simp at h
  · intro id tags h
    rcases update_newCalls_cases validate c d w with h0 | h0 | ⟨tail, ht, h0⟩
    · simp [h0] at h
    · simp [h0] at h
    · rw [h0] at h
      simp only [List.mem_cons, List.mem_append, reduceCtorEq, false_or] at h
      rcases h with h | h
      · exact mem_tagPhaseCalls_delete h
      · rcases ht with rfl | rfl <;> simp at h
  · intro e h1 h2 h3
    obtain ⟨tail, _, hl⟩ := update_reaches_log validate c d w e h1 h2 h3
    rw [newCalls_append _ _ _ hl]
    constructor
    · intro ha
      simp [tagPhaseCalls, ha]
    · intro hd hadd
      have hc : ¬ (tagsToDelete d = [] ∨ (tagsToAdd d ≠ [] ∧
          (c.EnvironmentTagsAdd d.Id (tagsToAdd d)
            (c.EnvironmentsUpdate d.Id (environmentUpdateOptions d) w.remote).2).1 ≠ none)) := by
        rintro (h | ⟨h, h4⟩)
        · exact hd h
        · rcases hadd with h5 | h5
          · exact h h5
          · exact h4 h5
      simp [tagPhaseCalls, hc]
  · intro hO hN
    have ha : tagsToAdd d = [] := by
      simp [tagsToAdd, InterfaceArrToTagRelationArr, SchemaSet.List, SchemaSet.Difference,
        SchemaSet.items, hN]
    have hd : tagsToDelete d = [] := by
      simp [tagsToDelete, InterfaceArrToTagRelationArr, SchemaSet.List, SchemaSet.Difference,
        SchemaSet.items, hO]
    refine ⟨ha, hd, ?_⟩
    intro call hcall
    rcases update_newCalls_cases validate c d w with h0 | h0 | ⟨tail, ht, h0⟩
    · simp [h0] at hcall
    · simp [h0] at hcall
      simp [hcall, Call.isTagCall]
    · rw [h0] at hcall
      have hp : tagPhaseCalls c d
          (c.EnvironmentsUpdate d.Id (environmentUpdateOptions d) w.remote).2 = [] := by
        simp [tagPhaseCalls, ha, hd]
      rw [hp] at hcall
      rcases ht with rfl | rfl
      · simp at hcall
        simp [hcall, Call.isTagCall]
      · simp at hcall
        rcases hcall with rfl | rfl <;> simp [Call.isTagCall]

theorem C3_tag_difference_witness :
    newCalls { remote := sampleRemote, log := [] }
        (resourceScalrEnvironmentUpdate acceptAll memClient sampleEnvironmentData
          { remote := sampleRemote, log := [] }).2.2 =
      [Call.EnvironmentsUpdate "env-1" (environmentUpdateOptions sampleEnvironmentData),
        Call.EnvironmentTagsAdd "env-1" [{ ID := "tag-c" }],
        Call.EnvironmentTagsDelete "env-1" [{ ID := "tag-a" }],
        Call.EnvironmentsRead "env-1"] ∧
    ((∀ x, x ∈ tagIDs (tagsToAdd sampleEnvironmentData) ↔
        x ∈ sampleEnvironmentData.tag_ids ∧ x ∉ sampleEnvironmentData.tag_ids_old) ∧
      (∀ x, x ∈ tagIDs (tagsToDelete sampleEnvironmentData) ↔
        x ∈ sampleEnvironmentData.tag_ids_old ∧ x ∉ sampleEnvironmentData.tag_ids)) ∧
    Call.EnvironmentTagsAdd sampleEnvironmentData.Id (tagsToAdd sampleEnvironmentData) ∈
      newCalls { remote := sampleRemote, log := [] }
        (resourceScalrEnvironmentUpdate acceptAll memClient sampleEnvironmentData
          { remote := sampleRemote, log := [] }).2.2 :=
  ⟨by set_option maxRecDepth 100000 in decide,
    (C3_tag_difference acceptAll memClient sampleEnvironmentData
      { remote := sampleRemote, log := [] }).2.2.1 (by set_option maxRecDepth 100000 in decide),
    ((C3_tag_difference acceptAll memClient sampleEnvironmentData
      { remote := sampleRemote, log := [] }).2.2.2.2.2.2.1
        sampleEnvironment rfl rfl rfl).1 (by set_option maxRecDepth 100000 in decide)⟩

/-- C9: in `resourceScalrEnvironmentUpdate` the tag add phase runs before the
tag remove phase (the tag calls of an update are, in order, none, the add call,
the delete call, or the add call then the delete call), and whenever the add
list is non-empty and the add operation fails, the update returns the add
error at once: the delete operation and the follow-up read are not called. -/
theorem C9_add_failure_stops_update (validate : List String → Option GoError) (c : Client σ)
    (d : EnvironmentData) (w : World σ) :
    ((newCalls w (resourceScalrEnvironmentUpdate validate c d w).2.2).filter Call.isTagCall = [] ∨
     (newCalls w (resourceScalrEnvironmentUpdate validate c d w).2.2).filter Call.isTagCall =
        [Call.EnvironmentTagsAdd d.Id (tagsToAdd d)] ∨
     (newCalls w (resourceScalrEnvironmentUpdate validate c d w).2.2).filter Call.isTagCall =
        [Call.EnvironmentTagsDelete d.Id (tagsToDelete d)] ∨
     (newCalls w (resourceScalrEnvironmentUpdate validate c d w).2.2).filter Call.isTagCall =
        [Call.EnvironmentTagsAdd d.Id (tagsToAdd d),
          Call.EnvironmentTagsDelete d.Id (tagsToDelete d)]) ∧
    (∀ e err, validate d.cloud_credentials = none → validate d.policy_groups = none →
      (c.EnvironmentsUpdate d.Id (environmentUpdateOptions d) w.remote).1 = .ok e →
      tagsToAdd d ≠ [] →
      (c.EnvironmentTagsAdd d.Id (tagsToAdd d)
        (c.EnvironmentsUpdate d.Id (environmentUpdateOptions d) w.remote).2).1 = some err →
      (resourceScalrEnvironmentUpdate validate c d w).1 =
          some (.msg ("Error adding tags to environment " ++ d.Id ++ ": " ++ err.Error)) ∧
        newCalls w (resourceScalrEnvironmentUpdate validate c d w).2.2 =
          [Call.EnvironmentsUpdate d.Id (environmentUpdateOptions d),
            Call.EnvironmentTagsAdd d.Id (tagsToAdd d)]) := by
  constructor
  · rcases update_tagCalls validate c d w with h | h
    · exact Or.inl h
    · rw [h]
      exact tagPhaseCalls_shapes c d _
  · intro e err h1 h2 h3 ha hr
    rw [update_reaches_tags validate c d w e h1 h2 h3,
      updateEnvironmentTags_add_fails c d _ err ha hr]
    simp [newCalls]

theorem C9_add_failure_stops_update_witness :
    (resourceScalrEnvironmentUpdate acceptAll (scriptClient addFailsScript) sampleEnvironmentData
        { remote := (), log := [] }).1 =
      some (.msg ("Error adding tags to environment env-1: tag service unavailable")) ∧
    newCalls { remote := (), log := [] }
        (resourceScalrEnvironmentUpdate acceptAll (scriptClient addFailsScript)
          sampleEnvironmentData { remote := (), log := [] }).2.2 =
      [Call.EnvironmentsUpdate "env-1" (environmentUpdateOptions sampleEnvironmentData),
        Call.EnvironmentTagsAdd "env-1" [{ ID := "tag-c" }]] := by
  have ha : tagsToAdd sampleEnvironmentData = [{ ID := "tag-c" }] := by
    set_option maxRecDepth 100000 in decide
  have h := (C9_add_failure_stops_update acceptAll (scriptClient addFailsScript)
    sampleEnvironmentData { remote := (), log := [] }).2 sampleEnvironment
    (.msg "tag service unavailable") rfl rfl rfl (by rw [ha]; simp) rfl
  rw [ha] at h
  exact h

/-! ### User membership -/

/-- On a well-formed identifier `getLinkedUserTeam` reads the team named by the
second half and scans its users for the first half. -/
theorem getLinkedUserTeam_pack (c : Client σ) (w : World σ) (userID teamID : String)
    (h : '/' ∉ userID.data) :
    getLinkedUserTeam c (packIamUserMembershipID userID teamID) w =
      match callTeamsRead c teamID w with
      | (.error err, w1) => (.error err, w1)
      | (.ok team, w1) =>
        match team.Users.find? (fun u => u.ID == userID) with
        | none => (.error .ErrResourceNotFound, w1)
        | some user => (.ok (user, team), w1) := by
  unfold getLinkedUserTeam
  rw [unpack_pack userID teamID h]

theorem getLinkedUserTeam_read_error (c : Client σ) (w : World σ) (userID teamID : String)
    (h : '/' ∉ userID.data) (err : GoError)
    (hr : (c.TeamsRead teamID w.remote).1 = .error err) :
    getLinkedUserTeam c (packIamUserMembershipID userID teamID) w =
      (.error err,
        { remote := (c.TeamsRead teamID w.remote).2, log := w.log ++ [Call.TeamsRead teamID] }) := by
  rw [getLinkedUserTeam_pack c w userID teamID h]
  simp [callTeamsRead, hr]

theorem getLinkedUserTeam_absent (c : Client σ) (w : World σ) (userID teamID : String)
    (h : '/' ∉ userID.data) (team : Team)
    (hr : (c.TeamsRead teamID w.remote).1 = .ok team)
    (hu : ∀ u ∈ team.Users, u.ID ≠ userID) :
    getLinkedUserTeam c (packIamUserMembershipID userID teamID) w =
      (.error .ErrResourceNotFound,
        { remote := (c.TeamsRead teamID w.remote).2, log := w.log ++ [Call.TeamsRead teamID] }) := by
  rw [getLinkedUserTeam_pack c w userID teamID h]
  have hf : team.Users.find? (fun u => u.ID == userID) = none := by
    rw [List.find?_eq_none]
    intro x hx
    simpa using hu x hx
  simp [callTeamsRead, hr, hf]

theorem getLinkedUserTeam_found (c : Client σ) (w : World σ) (userID teamID : String)
    (h : '/' ∉ userID.data) (team : Team) (user : User)
    (hr : (c.TeamsRead teamID w.remote).1 = .ok team)
    (hf : team.Users.find? (fun u => u.ID == userID) = some user) :
    getLinkedUserTeam c (packIamUserMembershipID userID teamID) w =
      (.ok (user, team),
        { remote := (c.TeamsRead teamID w.remote).2, log := w.log ++ [Call.TeamsRead teamID] }) := by
  rw [getLinkedUserTeam_pack c w userID teamID h]
  simp [callTeamsRead, hr, hf]

/-- A scan that meets a user with the identifier finds one. -/
theorem find_user_of_mem (users : List User) (userID : String) (u : User)
    (hu : u ∈ users) (hid : u.ID = userID) :
    ∃ user, users.find? (fun u => u.ID == userID) = some user ∧ user ∈ users ∧
      user.ID = userID := by
  cases hf : users.find? (fun u => u.ID == userID) with
  | none =>
    rw [List.find?_eq_none] at hf
    exact absurd (by simpa using hid) (hf u hu)
  | some user =>
    exact ⟨user, rfl, List.mem_of_find?_eq_some hf, by simpa using List.find?_some hf⟩

/-- The scan of a list the new user was appended to finds the appended user. -/
theorem find_appended (users : List User) (u : String) (hu : u ∉ userIDs users) :
    (users ++ [User.ofID u]).find? (fun x => x.ID == u) = some (User.ofID u) := by
  have hn : users.find? (fun x => x.ID == u) = none := by
    rw [List.find?_eq_none]
    intro x hx hxe
    apply hu
    simp only [userIDs, List.mem_map]
    exact ⟨x, hx, by simpa using hxe⟩
  simp [List.find?_append, hn, User.ofID]

/-- Removing the appended user gives the list back. -/
theorem filter_appended (users : List User) (u : String) (hu : u ∉ userIDs users) :
    (users ++ [User.ofID u]).filter (fun x => x.ID != (User.ofID u).ID) = users := by
  have hs : users.filter (fun x => x.ID != u) = users := by
    rw [List.filter_eq_self]
    intro x hx
    have : x.ID ≠ u := fun e => hu (by simp only [userIDs, List.mem_map]; exact ⟨x, hx, e⟩)
    simpa using this
  simp [List.filter_append, User.ofID, hs]

/-- The calls of a create that reads the team `team`: the read, then the
write-back of the users of `team` followed by the new user, then possibly the
read of the follow-up `Read`; the write-back is the only `Teams.Update`. -/
theorem create_writes (c : Client σ) (d : MembershipData) (w : World σ) (team : Team)
    (hr : (c.TeamsRead d.team_id w.remote).1 = .ok team) :
    teamWrites (newCalls w (resourceScalrIamUserMembershipCreate c d w).2.2) =
      [(d.team_id, team.Users ++ [User.ofID d.user_id])] := by
  unfold resourceScalrIamUserMembershipCreate
  simp only [callTeamsRead, hr, callTeamsUpdate]
  cases hupd : (c.TeamsUpdate d.team_id { Users := team.Users ++ [User.ofID d.user_id] }
      (c.TeamsRead d.team_id w.remote).2).1 with
  | error err => simp [newCalls, teamWrites]
  | ok t =>
    simp only [resourceScalrIamUserMembershipRead, getLinkedUserTeam]
    rcases hu : unpackIamUserMembershipID (packIamUserMembershipID d.user_id d.team_id) with
      ⟨a, b, e⟩
    cases e with
    | some err =>
      cases hn : err.isNotFound <;> simp [hn, newCalls, teamWrites]
    | none =>
      simp only [callTeamsRead]
      cases hr2 : (c.TeamsRead b (c.TeamsUpdate d.team_id
          { Users := team.Users ++ [User.ofID d.user_id] }
          (c.TeamsRead d.team_id w.remote).2).2).1 with
      | error err => cases hn : err.isNotFound <;> simp [hn, newCalls, teamWrites]
      | ok t2 =>
        simp only []
        cases hf : t2.Users.find? (fun u => u.ID == a) <;>
          simp [GoError.isNotFound, newCalls, teamWrites]

/-- A delete that finds the user writes back the other users of the team, and
returns an error exactly when that write fails. -/
theorem delete_found (c : Client σ) (d : MembershipData) (w : World σ)
    (userID teamID : String) (team : Team) (user : User)
    (hid : d.Id = packIamUserMembershipID userID teamID) (h : '/' ∉ userID.data)
    (hr : (c.TeamsRead teamID w.remote).1 = .ok team)
    (hf : team.Users.find? (fun u => u.ID == userID) = some user) :
    newCalls w (resourceScalrIamUserMembershipDelete c d w).2.2 =
        [Call.TeamsRead teamID,
          Call.TeamsUpdate team.ID { Users := team.Users.filter (fun u => u.ID != user.ID) }] ∧
      ((resourceScalrIamUserMembershipDelete c d w).1 = none ↔
        ∃ t, (c.TeamsUpdate team.ID { Users := team.Users.filter (fun u => u.ID != user.ID) }
          (c.TeamsRead teamID w.remote).2).1 = .ok t) := by
  unfold resourceScalrIamUserMembershipDelete
  rw [hid, getLinkedUserTeam_found c w userID teamID h team user hr hf]
  simp only [callTeamsUpdate]
  cases hupd : (c.TeamsUpdate team.ID { Users := team.Users.filter (fun u => u.ID != user.ID) }
      (c.TeamsRead teamID w.remote).2).1 with
  | error err => simp [newCalls]
  | ok t => simp [newCalls]

/-- The identifiers left when the members with the ID `u` are removed from a
list whose identifiers are those of `users` and `u`, `u` not among the former. -/
theorem userIDs_filter_removed (users members : List User) (u : String)
    (hnew : u ∉ userIDs users)
    (hset : ∀ x, x ∈ userIDs members ↔ x ∈ userIDs users ∨ x = u) (x : String) :
    x ∈ userIDs (members.filter (fun m => m.ID != u)) ↔ x ∈ userIDs users := by
  constructor
  · intro hx
    simp only [userIDs, List.mem_map, List.mem_filter, bne_iff_ne, ne_eq] at hx
    obtain ⟨m, ⟨hm, hne⟩, hmx⟩ := hx
    have hxm : x ∈ userIDs members := by
      simp only [userIDs, List.mem_map]
      exact ⟨m, hm, hmx⟩
    rcases (hset x).mp hxm with h | h
    · exact h
    · exact absurd (hmx.trans h) hne
  · intro hx
    have hxm : x ∈ userIDs members := (hset x).mpr (Or.inl hx)
    simp only [userIDs, List.mem_map] at hxm
    obtain ⟨m, hm, hmx⟩ := hxm
    simp only [userIDs, List.mem_map, List.mem_filter, bne_iff_ne, ne_eq]
    refine ⟨m, ⟨hm, ?_⟩, hmx⟩
    intro hmu
    exact hnew ((hmx.symm.trans hmu) ▸ hx)

/-- C4: for every team whose current user list is `U` and every user `u` not in
`U` (`u` without `"/"`), create writes back to the team exactly one user list,
`U` followed by `u`, whose set of IDs is `U ∪ {u}`; and a subsequent delete of
the membership `pack(u, teamID)`, run when the team read gives any user list
whose set of IDs is `U ∪ {u}`, reads the team and writes back exactly the
members of that list whose ID is not `u`: every other member is kept, only `u`
is removed, and the set of IDs written back is exactly `U`. When the list read
is the very list create wrote, the list written back is `U` itself. -/
theorem C4_create_then_delete (c : Client σ) (d : MembershipData) (w : World σ) (team : Team)
    (hu : '/' ∉ d.user_id.data)
    (hr : (c.TeamsRead d.team_id w.remote).1 = .ok team)
    (hnew : d.user_id ∉ userIDs team.Users) :
    teamWrites (newCalls w (resourceScalrIamUserMembershipCreate c d w).2.2) =
        [(d.team_id, team.Users ++ [User.ofID d.user_id])] ∧
    (∀ x, x ∈ userIDs (team.Users ++ [User.ofID d.user_id]) ↔
      x ∈ userIDs team.Users ∨ x = d.user_id) ∧
    (∀ (d2 : MembershipData) (w2 : World σ) (team2 : Team),
      d2.Id = packIamUserMembershipID d.user_id d.team_id →
      (c.TeamsRead d.team_id w2.remote).1 = .ok team2 →
      (∀ x, x ∈ userIDs team2.Users ↔ x ∈ userIDs team.Users ∨ x = d.user_id) →
      newCalls w2 (resourceScalrIamUserMembershipDelete c d2 w2).2.2 =
          [Call.TeamsRead d.team_id,
            Call.TeamsUpdate team2.ID
              { Users := team2.Users.filter (fun m => m.ID != d.user_id) }] ∧
        teamWrites (newCalls w2 (resourceScalrIamUserMembershipDelete c d2 w2).2.2) =
          [(team2.ID, team2.Users.filter (fun m => m.ID != d.user_id))] ∧
        (∀ m, m ∈ team2.Users.filter (fun m => m.ID != d.user_id) ↔
          m ∈ team2.Users ∧ m.ID ≠ d.user_id) ∧
        (∀ x, x ∈ userIDs (team2.Users.filter (fun m => m.ID != d.user_id)) ↔
          x ∈ userIDs team.Users) ∧
        (team2.Users = team.Users ++ [User.ofID d.user_id] →
          team2.Users.filter (fun m => m.ID != d.user_id) = team.Users)) := by
  refine ⟨create_writes c d w team hr, ?_, ?_⟩
  · intro x
    simp [userIDs, User.ofID]
  · intro d2 w2 team2 hid hr2 hset
    have hmem : d.user_id ∈ userIDs team2.Users := (hset d.user_id).mpr (Or.inr rfl)
    simp only [userIDs, List.mem_map] at hmem
    obtain ⟨m, hm, hmu⟩ := hmem
    obtain ⟨user, hf, _, huser⟩ := find_user_of_mem team2.Users d.user_id m hm hmu
    have hd := (delete_found c d2 w2 d.user_id d.team_id team2 user hid hu hr2 hf).1
    rw [huser] at hd
    refine ⟨hd, ?_, ?_, ?_, ?_⟩
    · rw [hd]; rfl
    · intro m2
      simp [List.mem_filter]
    · exact userIDs_filter_removed team.Users team2.Users d.user_id hnew hset
    · intro husers
      rw [husers]
      exact filter_appended team.Users d.user_id hnew

theorem C4_create_then_delete_witness :
    ('/' ∉ sampleMembershipData.user_id.data ∧
      (memClient.TeamsRead sampleMembershipData.team_id sampleRemote).1 = .ok sampleTeam ∧
      sampleMembershipData.user_id ∉ userIDs sampleTeam.Users) ∧
    teamWrites (newCalls { remote := sampleRemote, log := [] }
        (resourceScalrIamUserMembershipCreate memClient sampleMembershipData
          { remote := sampleRemote, log := [] }).2.2) =
      [("team-1", [User.ofID "u1", User.ofID "u2", User.ofID "u3"])] ∧
    (resourceScalrIamUserMembershipCreate memClient sampleMembershipData
        { remote := sampleRemote, log := [] }).2.1.Id = "u3/team-1" ∧
    (resourceScalrIamUserMembershipCreate memClient sampleMembershipData
        { remote := sampleRemote, log := [] }).2.2.remote.teams =
      [{ ID := "team-1", Users := [User.ofID "u1", User.ofID "u2", User.ofID "u3"] }] ∧
    (resourceScalrIamUserMembershipDelete memClient
        (resourceScalrIamUserMembershipCreate memClient sampleMembershipData
          { remote := sampleRemote, log := [] }).2.1
        (resourceScalrIamUserMembershipCreate memClient sampleMembershipData
          { remote := sampleRemote, log := [] }).2.2).2.2.remote.teams = [sampleTeam] ∧
    newCalls { remote := reorderedRemote, log := [] }
        (resourceScalrIamUserMembershipDelete memClient
          { Id := "u3/team-1", user_id := "u3", team_id := "team-1" }
          { remote := reorderedRemote, log := [] }).2.2 =
      [Call.TeamsRead "team-1",
        Call.TeamsUpdate "team-1" { Users := [User.ofID "u1", User.ofID "u2"] }] ∧
    (resourceScalrIamUserMembershipDelete memClient
        { Id := "u3/team-1", user_id := "u3", team_id := "team-1" }
        { remote := reorderedRemote, log := [] }).2.2.remote.teams = [sampleTeam] := by
  have hset : ∀ x, x ∈ userIDs [User.ofID "u1", User.ofID "u3", User.ofID "u2"] ↔
      x ∈ userIDs sampleTeam.Users ∨ x = sampleMembershipData.user_id := by
    intro x
    simp only [userIDs, User.ofID, sampleTeam, sampleMembershipData, List.map_cons,
      List.map_nil, List.mem_cons, List.mem_nil_iff, or_false]
    tauto
  have h := C4_create_then_delete memClient sampleMembershipData
    { remote := sampleRemote, log := [] } sampleTeam (by decide) rfl (by decide)
  have hdel := (h.2.2 { Id := "u3/team-1", user_id := "u3", team_id := "team-1" }
    { remote := reorderedRemote, log := [] }
    { ID := "team-1", Users := [User.ofID "u1", User.ofID "u3", User.ofID "u2"] }
    (by decide) rfl hset).1
  exact ⟨⟨by decide, rfl, by decide⟩, h.1, by decide, by decide, by decide, hdel, by decide⟩

/-- C5: for every well-formed membership id `userID/teamID` whose team lookup
succeeds: if no user of the team has the ID `userID`, `getLinkedUserTeam`
returns `ErrResourceNotFound` after the one team read (so the error comes from
the scan of the member list), and `Read` clears the persisted identifier and
returns no error; if some user of the team has the ID `userID`,
`getLinkedUserTeam` returns such a user and the team with no error, and `Read`
returns no error and keeps the identifier. -/
theorem C5_read_member_absent (c : Client σ) (d : MembershipData) (w : World σ)
    (userID teamID : String) (team : Team)
    (hid : d.Id = packIamUserMembershipID userID teamID) (hu : '/' ∉ userID.data)
    (hr : (c.TeamsRead teamID w.remote).1 = .ok team) :
    ((∀ u ∈ team.Users, u.ID ≠ userID) →
      (getLinkedUserTeam c d.Id w).1 = .error .ErrResourceNotFound ∧
      newCalls w (getLinkedUserTeam c d.Id w).2 = [Call.TeamsRead teamID] ∧
      (resourceScalrIamUserMembershipRead c d w).1 = none ∧
      (resourceScalrIamUserMembershipRead c d w).2.1.Id = "") ∧
    ((∃ u ∈ team.Users, u.ID = userID) →
      ∃ user ∈ team.Users, user.ID = userID ∧
        (getLinkedUserTeam c d.Id w).1 = .ok (user, team) ∧
        (resourceScalrIamUserMembershipRead c d w).1 = none ∧
        (resourceScalrIamUserMembershipRead c d w).2.1.Id = d.Id) := by
  constructor
  · intro hnone
    have hg := getLinkedUserTeam_absent c w userID teamID hu team hr hnone
    unfold resourceScalrIamUserMembershipRead
    rw [hid, hg]
    simp [newCalls, GoError.isNotFound]
  · rintro ⟨u, humem, huid⟩
    obtain ⟨user, hf, hmem, huser⟩ := find_user_of_mem team.Users userID u humem huid
    have hg := getLinkedUserTeam_found c w userID teamID hu team user hr hf
    refine ⟨user, hmem, huser, ?_⟩
    unfold resourceScalrIamUserMembershipRead
    rw [hid, hg]
    simp

theorem C5_read_member_absent_witness :
    (getLinkedUserTeam memClient "u9/team-1" { remote := sampleRemote, log := [] }).1 =
      .error .ErrResourceNotFound ∧
    (resourceScalrIamUserMembershipRead memClient
        { Id := "u9/team-1", user_id := "u9", team_id := "team-1" }
        { remote := sampleRemote, log := [] }).2.1.Id = "" ∧
    (getLinkedUserTeam memClient "u2/team-1" { remote := sampleRemote, log := [] }).1 =
      .ok (User.ofID "u2", sampleTeam) ∧
    ((∀ u ∈ sampleTeam.Users, u.ID ≠ "u9") →
      (getLinkedUserTeam memClient "u9/team-1" { remote := sampleRemote, log := [] }).1 =
        .error .ErrResourceNotFound ∧
      newCalls { remote := sampleRemote, log := [] }
        (getLinkedUserTeam memClient "u9/team-1" { remote := sampleRemote, log := [] }).2 =
          [Call.TeamsRead "team-1"] ∧
      (resourceScalrIamUserMembershipRead memClient
        { Id := "u9/team-1", user_id := "u9", team_id := "team-1" }
        { remote := sampleRemote, log := [] }).1 = none ∧
      (resourceScalrIamUserMembershipRead memClient
        { Id := "u9/team-1", user_id := "u9", team_id := "team-1" }
        { remote := sampleRemote, log := [] }).2.1.Id = "") :=
  ⟨rfl, by decide, rfl,
    (C5_read_member_absent memClient { Id := "u9/team-1", user_id := "u9", team_id := "team-1" }
      { remote := sampleRemote, log := [] } "u9" "team-1" sampleTeam (by decide) (by decide)
      rfl).1⟩

theorem isNotFound_eq_false {err : GoError} (h : err ≠ .ErrResourceNotFound) :
    err.isNotFound = false := by
  cases err with
  | ErrResourceNotFound => exact absurd rfl h
  | msg t => rfl

/-- C10: delete treats absence as success. `resourceScalrEnvironmentDelete`
returns no error when the remote delete succeeds or reports
`ErrResourceNotFound`, and an error for any other remote error.
`resourceScalrIamUserMembershipDelete` returns no error and makes no call
besides the team read (so writes nothing back) when the team read reports
`ErrResourceNotFound` or the user is not in the member list of the team; it
returns an error when the team read fails with any other error, and when the
write-back fails. -/
theorem C10_delete_absent_is_success (c : Client σ) (e : EnvironmentData)
    (d : MembershipData) (w : World σ) (userID teamID : String)
    (hid : d.Id = packIamUserMembershipID userID teamID) (hu : '/' ∉ userID.data) :
    ((c.EnvironmentsDelete e.Id w.remote).1 = some .ErrResourceNotFound →
      (resourceScalrEnvironmentDelete c e w).1 = none) ∧
    ((c.EnvironmentsDelete e.Id w.remote).1 = none →
      (resourceScalrEnvironmentDelete c e w).1 = none) ∧
    (∀ err, (c.EnvironmentsDelete e.Id w.remote).1 = some err → err ≠ .ErrResourceNotFound →
      (resourceScalrEnvironmentDelete c e w).1 =
        some (.msg ("Error deleting environment " ++ e.Id ++ ": " ++ err.Error))) ∧
    ((c.TeamsRead teamID w.remote).1 = .error .ErrResourceNotFound →
      (resourceScalrIamUserMembershipDelete c d w).1 = none ∧
      newCalls w (resourceScalrIamUserMembershipDelete c d w).2.2 = [Call.TeamsRead teamID]) ∧
    (∀ team, (c.TeamsRead teamID w.remote).1 = .ok team →
      (∀ u ∈ team.Users, u.ID ≠ userID) →
      (resourceScalrIamUserMembershipDelete c d w).1 = none ∧
      newCalls w (resourceScalrIamUserMembershipDelete c d w).2.2 = [Call.TeamsRead teamID]) ∧
    (∀ err, (c.TeamsRead teamID w.remote).1 = .error err → err ≠ .ErrResourceNotFound →
      (resourceScalrIamUserMembershipDelete c d w).1 =
        some (.msg ("error deleting iam user membership " ++ d.Id ++ ": " ++ err.Error))) ∧
    (∀ team user err, (c.TeamsRead teamID w.remote).1 = .ok team →
      team.Users.find? (fun u => u.ID == userID) = some user →
      (c.TeamsUpdate team.ID { Users := team.Users.filter (fun u => u.ID != user.ID) }
        (c.TeamsRead teamID w.remote).2).1 = .error err →
      (resourceScalrIamUserMembershipDelete c d w).1 =
        some (.msg ("error deleting iam user membership " ++ d.Id ++ ": " ++ err.Error))) := by
  refine ⟨?_, ?_, ?_, ?_, ?_, ?_, ?_⟩
  · intro h
    simp [resourceScalrEnvironmentDelete, callEnvironmentsDelete, h, GoError.isNotFound]
  · intro h
    simp [resourceScalrEnvironmentDelete, callEnvironmentsDelete, h]
  · intro err h hne
    simp [resourceScalrEnvironmentDelete, callEnvironmentsDelete, h, isNotFound_eq_false hne]
  · intro h
    unfold resourceScalrIamUserMembershipDelete
    rw [hid, getLinkedUserTeam_read_error c w userID teamID hu _ h]
    simp [newCalls, GoError.isNotFound]
  · intro team h hnone
    unfold resourceScalrIamUserMembershipDelete
    rw [hid, getLinkedUserTeam_absent c w userID teamID hu team h hnone]
    simp [newCalls, GoError.isNotFound]
  · intro err h hne
    unfold resourceScalrIamUserMembershipDelete
    rw [hid, getLinkedUserTeam_read_error c w userID teamID hu _ h]
    simp [isNotFound_eq_false hne]
  · intro team user err h hf hupd
    unfold resourceScalrIamUserMembershipDelete
    rw [hid, getLinkedUserTeam_found c w userID teamID hu team user h hf]
    simp [callTeamsUpdate, hupd]

theorem C10_delete_absent_is_success_witness :
    (resourceScalrEnvironmentDelete (scriptClient teamGoneScript) sampleEnvironmentData
      { remote := (), log := [] }).1 = none ∧
    (resourceScalrIamUserMembershipDelete (scriptClient teamGoneScript)
      { Id := "u3/team-1", user_id := "u3", team_id := "team-1" }
      { remote := (), log := [] }).1 = none ∧
    newCalls { remote := (), log := [] }
      (resourceScalrIamUserMembershipDelete (scriptClient teamGoneScript)
        { Id := "u3/team-1", user_id := "u3", team_id := "team-1" }
        { remote := (), log := [] }).2.2 = [Call.TeamsRead "team-1"] ∧
    (resourceScalrIamUserMembershipDelete memClient
      { Id := "u9/team-1", user_id := "u9", team_id := "team-1" }
      { remote := sampleRemote, log := [] }).1 = none ∧
    (resourceScalrIamUserMembershipDelete memClient
      { Id := "u9/team-1", user_id := "u9", team_id := "team-1" }
      { remote := sampleRemote, log := [] }).2.2.remote = sampleRemote :=
  ⟨(C10_delete_absent_is_success (scriptClient teamGoneScript) sampleEnvironmentData
      { Id := "u3/team-1", user_id := "u3", team_id := "team-1" } { remote := (), log := [] }
      "u3" "team-1" (by decide) (by decide)).1 rfl,
    ((C10_delete_absent_is_success (scriptClient teamGoneScript) sampleEnvironmentData
      { Id := "u3/team-1", user_id := "u3", team_id := "team-1" } { remote := (), log := [] }
      "u3" "team-1" (by decide) (by decide)).2.2.2.1 rfl).1,
    by decide, by decide, by decide⟩

/-! ### Workspace state migrations -/

theorem find_map_set (m : Doc) (k : String) (v : Value) (k2 : String) :
    (m.map (fun e => if (e.1 == k) = true then (k, v) else e)).find? (fun e => e.1 == k2) =
      if k2 = k then
        (match m.find? (fun e => e.1 == k) with
          | some _ => some (k, v)
          | none => none)
      else m.find? (fun e => e.1 == k2) := by
  induction m with
  | nil => simp
  | cons e es ih =>
    by_cases h1 : e.1 = k
    · by_cases h2 : k2 = k
      · simp [List.find?_cons, h1, h2]
      · have h3 : ¬ k = k2 := fun x => h2 x.symm
        simp [List.find?_cons, h1, h2, h3] at ih ⊢
        exact ih
    · by_cases h2 : k2 = k
      · simp [List.find?_cons, h1, h2] at ih ⊢
        exact ih
      · by_cases h3 : e.1 = k2
        · simp [List.find?_cons, h1, h2, h3]
        · simp [List.find?_cons, h1, h2, h3] at ih ⊢
          exact ih

theorem Doc.get_set_same (m : Doc) (k : String) (v : Value) : (m.set k v).get k = some v := by
  unfold Doc.set
  by_cases h : (m.get k).isSome = true
  · simp only [h, if_true]
    unfold Doc.get at h ⊢
    rw [find_map_set]
    cases hf : m.find? (fun e => e.1 == k) with
    | none => simp [hf] at h
    | some e => simp
  · simp only [h, if_false]
    unfold Doc.get at h ⊢
    cases hf : m.find? (fun e => e.1 == k) with
    | none => simp [List.find?_append, hf]
    | some e => simp [hf] at h

theorem Doc.get_set_other (m : Doc) (k : String) (v : Value) (k2 : String) (hne : k2 ≠ k) :
    (m.set k v).get k2 = m.get k2 := by
  unfold Doc.set
  by_cases h : (m.get k).isSome = true
  · simp only [h, if_true]
    unfold Doc.get
    rw [find_map_set]
    simp [hne]
  · simp only [h, if_false]
    unfold Doc.get
    have h3 : ¬ k = k2 := fun x => hne x.symm
    cases hf : m.find? (fun e => e.1 == k2) <;> simp [List.find?_append, hf, h3]

theorem Doc.get_delete_same (m : Doc) (k : String) : (m.delete k).get k = none := by
  unfold Doc.delete Doc.get
  have : (m.filter (fun e => e.1 != k)).find? (fun e => e.1 == k) = none := by
    rw [List.find?_eq_none]
    intro x hx
    simp only [List.mem_filter] at hx
    simpa using hx.2
  rw [this]

theorem Doc.get_delete_other (m : Doc) (k k2 : String) (hne : k2 ≠ k) :
    (m.delete k).get k2 = m.get k2 := by
  unfold Doc.delete Doc.get
  have : (m.filter (fun e => e.1 != k)).find? (fun e => e.1 == k2) =
      m.find? (fun e => e.1 == k2) := by
    induction m with
    | nil => simp
    | cons e es ih =>
      by_cases h1 : e.1 = k
      · have hb1 : (e.1 != k) = false := by simp [h1]
        have hb2 : (e.1 == k2) = false := by
          simp only [beq_eq_false_iff_ne]
          exact fun x => hne (x.symm.trans h1)
        simp only [List.filter_cons, hb1, Bool.false_eq_true, if_false, List.find?_cons, hb2]
        exact ih
      · have hb1 : (e.1 != k) = true := by simp [h1]
        cases hb2 : (e.1 == k2) with
        | true => simp only [List.filter_cons, hb1, if_true, List.find?_cons, hb2]
        | false =>
          simp only [List.filter_cons, hb1, if_true, List.find?_cons, hb2]
          exact ih
  rw [this]

/-- C6: for every version-0 workspace state document that has an `external_id`
value `e`, `resourceScalrWorkspaceStateUpgradeV0` returns no error and a
document in which `id` is `e` and the key `external_id` is absent, every other
key being as before; the old `id` is discarded. -/
theorem C6_upgrade_v0 (rawState : Doc) (e : Value) (h : rawState.get "external_id" = some e) :
    ∃ out, resourceScalrWorkspaceStateUpgradeV0 rawState = .ok out ∧
      out.get "id" = some e ∧ out.get "external_id" = none ∧
      ∀ k, k ≠ "id" → k ≠ "external_id" → out.get k = rawState.get k := by
  refine ⟨_, rfl, ?_, ?_, ?_⟩
  · rw [Doc.get_delete_other _ _ _ (by decide), Doc.get_set_same, h]
    rfl
  · exact Doc.get_delete_same _ _
  · intro k h1 h2
    rw [Doc.get_delete_other _ _ _ h2, Doc.get_set_other _ _ _ _ h1]

theorem C6_upgrade_v0_witness :
    resourceScalrWorkspaceStateUpgradeV0 testResourceScalrWorkspaceStateDataV0 =
      .ok [("id", .str "ws-123")] ∧
    ∃ out, resourceScalrWorkspaceStateUpgradeV0 testResourceScalrWorkspaceStateDataV0 = .ok out ∧
      out.get "id" = some (.str "ws-123") ∧ out.get "external_id" = none ∧
      ∀ k, k ≠ "id" → k ≠ "external_id" →
        out.get k = testResourceScalrWorkspaceStateDataV0.get k :=
  ⟨rfl, C6_upgrade_v0 testResourceScalrWorkspaceStateDataV0 (.str "ws-123") rfl⟩

/-- C7: for every version-1 workspace state document: if it has a
single-element `vcs_repo` list whose element carries `oauth_token_id = p`,
`resourceScalrWorkspaceStateUpgradeV1` returns no error and a document with
`vcs_provider_id = p`, whose `vcs_repo` is the single element without
`oauth_token_id` and with every other key of the element unchanged, and with
every other key of the document unchanged; if the document has no `vcs_repo`
key it is returned unchanged, so no `vcs_provider_id` is added. -/
theorem C7_upgrade_v1 (rawState : Doc) :
    (∀ vcs p, rawState.get "vcs_repo" = some (.list [.map vcs]) →
      Doc.get vcs "oauth_token_id" = some p →
      ∃ out vcs2, resourceScalrWorkspaceStateUpgradeV1 rawState = .ok out ∧
        out.get "vcs_provider_id" = some p ∧
        out.get "vcs_repo" = some (.list [.map vcs2]) ∧
        Doc.get vcs2 "oauth_token_id" = none ∧
        (∀ k, k ≠ "oauth_token_id" → Doc.get vcs2 k = Doc.get vcs k) ∧
        (∀ k, k ≠ "vcs_provider_id" → k ≠ "vcs_repo" → out.get k = rawState.get k)) ∧
    (rawState.get "vcs_repo" = none →
      resourceScalrWorkspaceStateUpgradeV1 rawState = .ok rawState) := by
  constructor
  · intro vcs p h hp
    refine ⟨(rawState.set "vcs_provider_id" ((Doc.get vcs "oauth_token_id").getD .null)).set
      "vcs_repo" (.list [.map (Doc.delete vcs "oauth_token_id")]),
      Doc.delete vcs "oauth_token_id", ?_, ?_, ?_, ?_, ?_, ?_⟩
    · simp only [resourceScalrWorkspaceStateUpgradeV1, h]
    · rw [Doc.get_set_other _ _ _ _ (by decide), Doc.get_set_same, hp]
      rfl
    · exact Doc.get_set_same _ _ _
    · exact Doc.get_delete_same _ _
    · intro k hk
      exact Doc.get_delete_other _ _ _ hk
    · intro k h1 h2
      rw [Doc.get_set_other _ _ _ _ h2, Doc.get_set_other _ _ _ _ h1]
  · intro h
    simp only [resourceScalrWorkspaceStateUpgradeV1, h]

theorem C7_upgrade_v1_witness :
    resourceScalrWorkspaceStateUpgradeV1 testResourceScalrWorkspaceStateDataV1VcsRepo =
      .ok [("id", .str "my-org/test"),
        ("vcs_repo", .list [.map [("identifier", .str "test_identifier")]]),
        ("vcs_provider_id", .str "test_provider_id")] ∧
    resourceScalrWorkspaceStateUpgradeV1 [("id", .str "ws-123")] = .ok [("id", .str "ws-123")] ∧
    ∃ out vcs2, resourceScalrWorkspaceStateUpgradeV1
        testResourceScalrWorkspaceStateDataV1VcsRepo = .ok out ∧
      out.get "vcs_provider_id" = some (.str "test_provider_id") ∧
      out.get "vcs_repo" = some (.list [.map vcs2]) ∧
      Doc.get vcs2 "oauth_token_id" = none ∧
      (∀ k, k ≠ "oauth_token_id" → Doc.get vcs2 k =
        Doc.get [("oauth_token_id", .str "test_provider_id"),
          ("identifier", .str "test_identifier")] k) ∧
      (∀ k, k ≠ "vcs_provider_id" → k ≠ "vcs_repo" →
        out.get k = testResourceScalrWorkspaceStateDataV1VcsRepo.get k) :=
  ⟨rfl, (C7_upgrade_v1 [("id", .str "ws-123")]).2 rfl,
    (C7_upgrade_v1 testResourceScalrWorkspaceStateDataV1VcsRepo).1 _ (.str "test_provider_id")
      rfl rfl⟩

/-- C8: for every version-3 workspace state document whose `operations` field
is a boolean `b`, `resourceScalrWorkspaceStateUpgradeV3` returns no error and a
document in which `execution_mode` is `"remote"` if `b` is true and `"local"`
if `b` is false, `operations` still holds `b`, and every other key is
unchanged. -/
theorem C8_upgrade_v3 (rawState : Doc) (b : Bool)
    (h : rawState.get "operations" = some (.bool b)) :
    ∃ out, resourceScalrWorkspaceStateUpgradeV3 rawState = .ok out ∧
      out.get "execution_mode" = some (.str (if b then "remote" else "local")) ∧
      out.get "operations" = some (.bool b) ∧
      ∀ k, k ≠ "execution_mode" → out.get k = rawState.get k := by
  refine ⟨rawState.set "execution_mode" (.str (if b then "remote" else "local")), ?_, ?_, ?_, ?_⟩
  · simp only [resourceScalrWorkspaceStateUpgradeV3, h]
  · exact Doc.get_set_same _ _ _
  · rw [Doc.get_set_other _ _ _ _ (by decide), h]
  · intro k hk
    exact Doc.get_set_other _ _ _ _ hk

theorem C8_upgrade_v3_witness :
    resourceScalrWorkspaceStateUpgradeV3 (testResourceScalrWorkspaceStateDataV3Operations false) =
      .ok [("operations", .bool false), ("execution_mode", .str "local")] ∧
    resourceScalrWorkspaceStateUpgradeV3 (testResourceScalrWorkspaceStateDataV3Operations true) =
      .ok [("operations", .bool true), ("execution_mode", .str "remote")] ∧
    ∃ out, resourceScalrWorkspaceStateUpgradeV3
        (testResourceScalrWorkspaceStateDataV3Operations false) = .ok out ∧
      out.get "execution_mode" = some (.str (if false then "remote" else "local")) ∧
      out.get "operations" = some (.bool false) ∧
      ∀ k, k ≠ "execution_mode" →
        out.get k = (testResourceScalrWorkspaceStateDataV3Operations false).get k :=
  ⟨rfl, rfl, C8_upgrade_v3 (testResourceScalrWorkspaceStateDataV3Operations false) false rfl⟩

/-! ### Service account data source -/

/-- C11, as stated, fails: on a lookup by email whose list result has
`TotalCount = 1` and no item, the count is neither above 1 nor 0, yet there is
no first listed item: the read indexes the empty list and ends in a Go runtime
error, so it neither sets the identifier nor returns without error. -/
theorem C11_service_account_lookup_counterexample :
    (dataSourceScalrServiceAccountRead
        (scriptServiceAccounts (.ok otherServiceAccount) (.ok { Items := [], TotalCount := 1 }))
        lookupByEmailData ()).result = none ∧
    ¬ ∃ data, (dataSourceScalrServiceAccountRead
        (scriptServiceAccounts (.ok otherServiceAccount) (.ok { Items := [], TotalCount := 1 }))
        lookupByEmailData ()).result = some (none, data) := by
  have h : (dataSourceScalrServiceAccountRead
      (scriptServiceAccounts (.ok otherServiceAccount) (.ok { Items := [], TotalCount := 1 }))
      lookupByEmailData ()).result = none := by decide
  refine ⟨h, ?_⟩
  rintro ⟨data, hd⟩
  rw [h] at hd
  cases hd

/-- C11, amended: in `dataSourceScalrServiceAccountRead`, when no `id` is given
the only call is the list filtered by the email and the account of the data
(with `created-by` included); on a list result, a `TotalCount` greater than 1
fails with the ambiguous-query error, a `TotalCount` of 0 fails with the
could-not-find error, and otherwise, when the list has a first item, the
identifier and the attribute `id` are set to the ID of that item with no
error, while with no item listed the read does not return; a failed list is
returned as an error. When a non-empty `id` is given the only call is the read
by that `id`, so the filter lookup is never performed, and the identifier is
set to the ID of the account read. -/
theorem C11_service_account_lookup (c : ServiceAccountsClient σ) (d : ServiceAccountData)
    (r : σ) :
    (d.id = "" →
      (dataSourceScalrServiceAccountRead c d r).calls =
        [.ServiceAccountsList
          { Email := d.email, Account := d.account_id, Include := "created-by" }] ∧
      (∀ err, (c.ServiceAccountsList
          { Email := d.email, Account := d.account_id, Include := "created-by" } r).1 =
            .error err →
        (dataSourceScalrServiceAccountRead c d r).result =
          some (some (.msg ("Error retrieving service account: " ++ err.Error)), d)) ∧
      ∀ sas, (c.ServiceAccountsList
          { Email := d.email, Account := d.account_id, Include := "created-by" } r).1 =
            .ok sas →
        (sas.TotalCount > 1 →
          (dataSourceScalrServiceAccountRead c d r).result =
            some (some (.msg ("Your query returned more than one result. " ++
              "Please try a more specific search criteria.")), d)) ∧
        (sas.TotalCount = 0 →
          (dataSourceScalrServiceAccountRead c d r).result =
            some (some (.msg ("Could not find service account " ++ d.account_id ++
              "/" ++ d.email)), d)) ∧
        (∀ sa rest, ¬ sas.TotalCount > 1 → sas.TotalCount ≠ 0 → sas.Items = sa :: rest →
          (dataSourceScalrServiceAccountRead c d r).result =
            some (none, setServiceAccount d sa) ∧
          (setServiceAccount d sa).Id = sa.ID ∧ (setServiceAccount d sa).id = sa.ID) ∧
        (¬ sas.TotalCount > 1 → sas.TotalCount ≠ 0 → sas.Items = [] →
          (dataSourceScalrServiceAccountRead c d r).result = none)) ∧
    (d.id ≠ "" →
      (dataSourceScalrServiceAccountRead c d r).calls = [.ServiceAccountsRead d.id] ∧
      (∀ sa, (c.ServiceAccountsRead d.id r).1 = .ok sa →
        (dataSourceScalrServiceAccountRead c d r).result =
          some (none, setServiceAccount d sa) ∧
        (setServiceAccount d sa).Id = sa.ID ∧ (setServiceAccount d sa).id = sa.ID) ∧
      (∀ err, (c.ServiceAccountsRead d.id r).1 = .error err →
        (dataSourceScalrServiceAccountRead c d r).result =
          some (some (.msg ("Error retrieving service account: " ++ err.Error)), d))) := by
  constructor
  · intro hid
    have hopts : serviceAccountListOptions d =
        { Email := d.email, Account := d.account_id, Include := "created-by" } := rfl
    rw [← hopts]
    refine ⟨?_, ?_, ?_⟩
    · unfold dataSourceScalrServiceAccountRead
      simp only [hid, ne_eq, not_true_eq_false, if_false]
      rcases hl : c.ServiceAccountsList (serviceAccountListOptions d) r with ⟨res, r1⟩
      cases res with
      | error err => rfl
      | ok sas =>
        simp only []
        split
        · rfl
        · split
          · rfl
          · split <;> rfl
    · intro err hl
      rcases hl2 : c.ServiceAccountsList (serviceAccountListOptions d) r with ⟨res, r1⟩
      rw [hl2] at hl
      simp only at hl
      subst hl
      simp [dataSourceScalrServiceAccountRead, hid, hl2]
    · intro sas hl
      rcases hl2 : c.ServiceAccountsList (serviceAccountListOptions d) r with ⟨res, r1⟩
      rw [hl2] at hl
      simp only at hl
      subst hl
      refine ⟨?_, ?_, ?_, ?_⟩
      · intro hgt
        simp [dataSourceScalrServiceAccountRead, hid, hl2, hgt]
      · intro hz
        have hgt : ¬ sas.TotalCount > 1 := by omega
        simp [dataSourceScalrServiceAccountRead, hid, hl2, hz]
      · intro sa rest hgt hz hitems
        refine ⟨?_, rfl, rfl⟩
        simp [dataSourceScalrServiceAccountRead, hid, hl2, hgt, hz, hitems]
      · intro hgt hz hitems
        simp [dataSourceScalrServiceAccountRead, hid, hl2, hgt, hz, hitems]
  · intro hid
    rcases hl2 : c.ServiceAccountsRead d.id r with ⟨res, r1⟩
    refine ⟨?_, ?_, ?_⟩
    · cases res <;> simp [dataSourceScalrServiceAccountRead, hid, hl2]
    · intro sa hsa
      simp only at hsa
      subst hsa
      refine ⟨?_, rfl, rfl⟩
      simp [dataSourceScalrServiceAccountRead, hid, hl2]
    · intro err herr
      simp only at herr
      subst herr
      simp [dataSourceScalrServiceAccountRead, hid, hl2]

theorem C11_service_account_lookup_witness :
    (dataSourceScalrServiceAccountRead
        (scriptServiceAccounts (.ok otherServiceAccount)
          (.ok { Items := [sampleServiceAccount, otherServiceAccount], TotalCount := 2 }))
        lookupByEmailData ()).result =
      some (some (.msg ("Your query returned more than one result. " ++
        "Please try a more specific search criteria.")), lookupByEmailData) ∧
    (dataSourceScalrServiceAccountRead
        (scriptServiceAccounts (.ok otherServiceAccount) (.ok { Items := [], TotalCount := 0 }))
        lookupByEmailData ()).result =
      some (some (.msg "Could not find service account acc-1/deployer@acc-1.scalr.io"),
        lookupByEmailData) ∧
    (dataSourceScalrServiceAccountRead
        (scriptServiceAccounts (.ok otherServiceAccount)
          (.ok { Items := [sampleServiceAccount], TotalCount := 1 }))
        lookupByEmailData ()).calls =
      [.ServiceAccountsList
        { Email := "deployer@acc-1.scalr.io", Account := "acc-1", Include := "created-by" }] ∧
    ((dataSourceScalrServiceAccountRead
        (scriptServiceAccounts (.ok otherServiceAccount)
          (.ok { Items := [sampleServiceAccount], TotalCount := 1 }))
        lookupByEmailData ()).result =
      some (none, setServiceAccount lookupByEmailData sampleServiceAccount) ∧
      (setServiceAccount lookupByEmailData sampleServiceAccount).Id = sampleServiceAccount.ID ∧
      (setServiceAccount lookupByEmailData sampleServiceAccount).id =
        sampleServiceAccount.ID) ∧
    ((dataSourceScalrServiceAccountRead
        (scriptServiceAccounts (.ok otherServiceAccount)
          (.ok { Items := [sampleServiceAccount], TotalCount := 1 }))
        lookupByIdData ()).calls = [.ServiceAccountsRead "sa-2"] ∧
      (dataSourceScalrServiceAccountRead
        (scriptServiceAccounts (.ok otherServiceAccount)
          (.ok { Items := [sampleServiceAccount], TotalCount := 1 }))
        lookupByIdData ()).result =
      some (none, setServiceAccount lookupByIdData otherServiceAccount)) :=
  ⟨by decide, by decide,
    ((C11_service_account_lookup
      (scriptServiceAccounts (.ok otherServiceAccount)
        (.ok { Items := [sampleServiceAccount], TotalCount := 1 }))
      lookupByEmailData ()).1 rfl).1,
    (((C11_service_account_lookup
      (scriptServiceAccounts (.ok otherServiceAccount)
        (.ok { Items := [sampleServiceAccount], TotalCount := 1 }))
      lookupByEmailData ()).1 rfl).2.2 { Items := [sampleServiceAccount], TotalCount := 1 }
      rfl).2.2.1 sampleServiceAccount [] (by decide) (by decide) rfl,
    by decide, by decide⟩

/-! ### Uniqueness of the member list -/

theorem userIDs_append_new (users : List User) (u : String) :
    userIDs (users ++ [User.ofID u]) = userIDs users ++ [u] := by
  simp [userIDs, User.ofID]

/-- C12, as stated, fails: on the team `team-1` with the members `u1` and `u2`,
whose user list has no duplicate ID, a create of the membership of `u1` writes
back the list `u1`, `u2`, `u1`, in which the ID `u1` occurs twice. -/
theorem C12_create_keeps_ids_unique_counterexample :
    teamWrites (newCalls { remote := sampleRemote, log := [] }
        (resourceScalrIamUserMembershipCreate memClient repeatedMembershipData
          { remote := sampleRemote, log := [] }).2.2) =
      [("team-1", [User.ofID "u1", User.ofID "u2", User.ofID "u1"])] ∧
    ¬ ((memClient.TeamsRead repeatedMembershipData.team_id sampleRemote).1 = .ok sampleTeam →
      (userIDs sampleTeam.Users).Nodup →
      ∀ write ∈ teamWrites (newCalls { remote := sampleRemote, log := [] }
          (resourceScalrIamUserMembershipCreate memClient repeatedMembershipData
            { remote := sampleRemote, log := [] }).2.2),
        (userIDs write.2).Nodup) := by
  have hw : teamWrites (newCalls { remote := sampleRemote, log := [] }
      (resourceScalrIamUserMembershipCreate memClient repeatedMembershipData
        { remote := sampleRemote, log := [] }).2.2) =
      [("team-1", [User.ofID "u1", User.ofID "u2", User.ofID "u1"])] := by decide
  refine ⟨hw, ?_⟩
  intro h
  have h2 := h rfl (by decide) ("team-1", [User.ofID "u1", User.ofID "u2", User.ofID "u1"])
    (by rw [hw]; exact List.mem_singleton.mpr rfl)
  revert h2
  decide

/-- C12, amended: for every team whose current user list contains no duplicate
ID and for every user `u` that is not in that list, create writes back to the
team exactly one user list, and that list contains no duplicate ID. -/
theorem C12_create_keeps_ids_unique (c : Client σ) (d : MembershipData) (w : World σ)
    (team : Team) (hr : (c.TeamsRead d.team_id w.remote).1 = .ok team)
    (hU : (userIDs team.Users).Nodup) (hnew : d.user_id ∉ userIDs team.Users) :
    ∃ users, teamWrites (newCalls w (resourceScalrIamUserMembershipCreate c d w).2.2) =
        [(d.team_id, users)] ∧
      (userIDs users).Nodup := by
  refine ⟨team.Users ++ [User.ofID d.user_id], create_writes c d w team hr, ?_⟩
  rw [userIDs_append_new, List.nodup_append]
  refine ⟨hU, List.nodup_singleton _, ?_⟩
  intro x hx hx2
  rw [List.mem_singleton] at hx2
  exact hnew (hx2 ▸ hx)

theorem C12_create_keeps_ids_unique_witness :
    ((memClient.TeamsRead sampleMembershipData.team_id sampleRemote).1 = .ok sampleTeam ∧
      (userIDs sampleTeam.Users).Nodup ∧
      sampleMembershipData.user_id ∉ userIDs sampleTeam.Users) ∧
    ∃ users, teamWrites (newCalls { remote := sampleRemote, log := [] }
        (resourceScalrIamUserMembershipCreate memClient sampleMembershipData
          { remote := sampleRemote, log := [] }).2.2) =
        [(sampleMembershipData.team_id, users)] ∧
      (userIDs users).Nodup :=
  ⟨⟨rfl, by decide, by decide⟩,
    C12_create_keeps_ids_unique memClient sampleMembershipData
      { remote := sampleRemote, log := [] } sampleTeam rfl (by decide) (by decide)⟩

end Scalr
